import Mathlib

/-!
Shallow embedding of the Yellow-rs expression engine: the lexer
(`src/core/eval/lexer.rs`) and the typed tree-walking evaluator
(`src/core/eval/exec.rs`), together with theorems about span propagation,
error classification, numeric casts, comparison semantics, and the
modulo/integer-division divide-by-zero behaviour.

Machine integers (`i128`, `i32`, `u32`) are modelled as `Int`/`Nat` with
explicit range checks at every point where the Rust code checks (or fails
to check) for overflow.  `f64` values are modelled by an abstract carrier
type `F` packaged with the operations the code uses (`FloatModel`); the
concrete instance `RatF64` interprets the carrier as `ℚ` and is used for
claims whose code paths only involve operations that are exact in IEEE-754
binary64 (casts from `i32`, round/truncate of integral values, scaling by
two, division with exact quotient).
-/

set_option maxRecDepth 16000

namespace Yellow

/-- Span of source text: byte offsets in the intent of the code
(`error.rs` is not under `src/`; modelled from the spec:
`Span {start: usize, end: usize}`, half-open, combined as
`{left.start, right.end}`). -/
structure Pos where
  start : Nat
  «end» : Nat
deriving DecidableEq, Repr

/-- Constructor mirroring `Pos::new(start, end)`. -/
def Pos.new (s e : Nat) : Pos := ⟨s, e⟩

/-- Modelled from the spec (`error.rs` is not under `src/`):
`ErrorKind ∈ {LexError, TypeError, RuntimeError}`. -/
inductive ErrorType where
  | LexError
  | TypeError
  | RuntimeError
deriving DecidableEq, Repr

/-- Modelled from the spec (`error.rs` is not under `src/`):
`Error: {message, kind, span}`, built by `Error::new(message, kind, pos)`. -/
structure Error where
  message : String
  kind : ErrorType
  pos : Pos
deriving DecidableEq, Repr

/-- Constructor mirroring `Error::new`. -/
def Error.new (m : String) (k : ErrorType) (p : Pos) : Error := ⟨m, k, p⟩

/-- Outcome of running a fragment of the Rust code: a normal `Result::Ok`,
a normal `Result::Err`, or a Rust panic (used for the unguarded `%` on a
zero divisor, for overflow of `-`/`abs` on `i128::MIN`, for byte-slicing a
string at a non-character boundary, and for the `panic!` in
`Lexer::new_literal`). -/
inductive Outcome (α : Type) where
  | ok : α → Outcome α
  | err : Error → Outcome α
  | panic : String → Outcome α
deriving DecidableEq, Repr

/-- Sequencing in the style of Rust's `?` operator: `Err` and panics
propagate. -/
def Outcome.bind {α β : Type} : Outcome α → (α → Outcome β) → Outcome β
  | .ok a, f => f a
  | .err e, _ => .err e
  | .panic m, _ => .panic m

/-- Mapping over the `Ok` case. -/
def Outcome.map {α β : Type} (f : α → β) : Outcome α → Outcome β
  | .ok a => .ok (f a)
  | .err e => .err e
  | .panic m => .panic m

/-- Modelled from the spec (`ast.rs` is not under `src/`): the operator
enum consumed from the AST contract, with exactly the 22 variants the spec
lists. -/
inductive Operator where
  | Add | Sub | Mul | Div | IntDiv | Mod | Pow
  | BitShiftL | BitShiftR
  | BAnd | BOr | BXor | BNot
  | LAnd | LOr | LNot
  | As
  | Eql | NEql
  | LT | LE | GT | GE
deriving DecidableEq, Repr

/-- Modelled from the spec (`ast.rs` is not under `src/`): token kinds;
the `TRUE`/`FALSE`/`LP`/`RP`/`EOF` spellings are the ones the lexer uses. -/
inductive TokenType where
  | Integer
  | Float
  | Identifier
  | TRUE
  | FALSE
  | LP
  | RP
  | Operator (op : Operator)
  | EOF
deriving DecidableEq, Repr

/-- Modelled from the spec (`ast.rs` is not under `src/`): a token as
built by `Token::new(tok_type, text, start, end)`; the text slice is
modelled as an owned `String`. -/
structure Token where
  tok_type : TokenType
  value : String
  pos : Pos
deriving DecidableEq, Repr

/-! ## Lexer (`src/core/eval/lexer.rs`)

The Rust lexer walks a `Peekable<Chars>` iterator while incrementing a
counter `pos` by one per *character*, and then slices the backing string
by *bytes* at `pos`-derived indices.  The embedding keeps both faithfully:
the state holds the remaining characters and the character-counting `pos`,
and the slice operation works on the UTF-8 byte offsets, returning `none`
(a Rust panic) when an index is not a character boundary. -/

/-- Mirrors `const EOF_CHAR: char = '\0'`. -/
def EOF_CHAR : Char := '\x00'

/-- Mirrors `is_whitespace`: the explicit whitespace set of the lexer. -/
def is_whitespace (c : Char) : Bool :=
  c = '\u0009' ∨ c = '\u000A' ∨ c = '\u000B' ∨ c = '\u000C' ∨ c = '\u000D' ∨
  c = ' ' ∨ c = '\u0085' ∨ c = '\u200E' ∨ c = '\u200F' ∨
  c = '\u2028' ∨ c = '\u2029'

/-- Mirrors `is_id_continue`. -/
def is_id_continue (c : Char) : Bool :=
  ('a' ≤ c ∧ c ≤ 'z') ∨ ('A' ≤ c ∧ c ≤ 'Z') ∨ ('0' ≤ c ∧ c ≤ '9') ∨ c = '_'

/-- Mirrors `is_id_start`. -/
def is_id_start (c : Char) : Bool :=
  ('a' ≤ c ∧ c ≤ 'z') ∨ ('A' ≤ c ∧ c ≤ 'Z') ∨ c = '_'

/-- Digit predicate used by `Lexer::number` (`|c| '0' <= c && c <= '9'`). -/
def isDigitChar (c : Char) : Bool := '0' ≤ c ∧ c ≤ '9'

/-- Lexer state: the remaining characters of the `Peekable<Chars>`
iterator, the full source (`file_contents`), and the character-counting
position `pos`. -/
structure Lexer where
  chars_peek : List Char
  file_contents : List Char
  pos : Nat
deriving DecidableEq, Repr

/-- Mirrors `Lexer::new`. -/
def Lexer.new (s : String) : Lexer := ⟨s.data, s.data, 0⟩

/-- Mirrors `Lexer::bump_char`: `pos += 1`, then
`chars_peek.next().unwrap_or(EOF_CHAR)`. -/
def Lexer.bump_char (lx : Lexer) : Char × Lexer :=
  match lx.chars_peek with
  | [] => (EOF_CHAR, { lx with pos := lx.pos + 1 })
  | c :: cs => (c, { lx with pos := lx.pos + 1, chars_peek := cs })

/-- Mirrors `Lexer::peek_char`. -/
def Lexer.peek_char (lx : Lexer) : Char := lx.chars_peek.headD EOF_CHAR

/-- Number of bytes of the UTF-8 encoding of one character. -/
def utf8Len (c : Char) : Nat :=
  if c.toNat < 0x80 then 1
  else if c.toNat < 0x800 then 2
  else if c.toNat < 0x10000 then 3
  else 4

/-- Drop exactly `a` bytes from the front of a character list; `none` when
`a` falls strictly inside a character's encoding (Rust: slicing at an
index that is not a char boundary panics). -/
def dropBytes : List Char → Nat → Option (List Char)
  | s, 0 => some s
  | [], _ + 1 => none
  | c :: cs, a + 1 =>
      if utf8Len c ≤ a + 1 then dropBytes cs (a + 1 - utf8Len c) else none

/-- Take exactly `n` bytes from the front of a character list; `none` when
`n` overruns the list or falls inside a character's encoding. -/
def takeBytes : List Char → Nat → Option (List Char)
  | _, 0 => some []
  | [], _ + 1 => none
  | c :: cs, n + 1 =>
      if utf8Len c ≤ n + 1 then
        (takeBytes cs (n + 1 - utf8Len c)).map (c :: ·)
      else none

/-- Rust byte-range slicing `s[a..b]` of a UTF-8 string, on the character
list model; `none` models the boundary/ordering/length panics. -/
def byteSlice (s : List Char) (a b : Nat) : Option (List Char) :=
  if a ≤ b then (dropBytes s a).bind (fun t => takeBytes t (b - a)) else none

/-- Mirrors `Lexer::crate_tok`: builds a token whose text is the slice
`file_contents[pos - next_len .. pos]`.  Because `pos` counts characters
while the slice indexes bytes, this panics (`.panic`) when those indices
do not land on character boundaries. -/
def Lexer.crate_tok (lx : Lexer) (tok_type : TokenType) (next_len : Nat) :
    Outcome Token :=
  match byteSlice lx.file_contents (lx.pos - next_len) lx.pos with
  | some cs => .ok ⟨tok_type, String.mk cs, ⟨lx.pos - next_len, lx.pos⟩⟩
  | none => .panic "byte index is not a char boundary"

/-- Bumping when the peeked character is real strictly shrinks the
remaining-character list (termination measure of the scanning loops). -/
theorem Lexer.bump_lt_of_peek_ne {lx : Lexer} (h : lx.peek_char ≠ EOF_CHAR) :
    (lx.bump_char).2.chars_peek.length < lx.chars_peek.length := by
  cases hc : lx.chars_peek with
  | nil => exact absurd (by simp [Lexer.peek_char, hc]) h
  | cons c cs => simp [Lexer.bump_char, hc]

/-- The bumped character is the peeked character. -/
theorem Lexer.bump_fst (lx : Lexer) : (lx.bump_char).1 = lx.peek_char := by
  cases hc : lx.chars_peek <;> simp [Lexer.bump_char, Lexer.peek_char, hc]

/-- Number of leading characters eaten by the `len_eat_while` loop: the
source loop runs while `predicate(val) && val != EOF_CHAR` on the peeked
character (structural core of `Lexer::len_eat_while`). -/
def eatWhileCount (p : Char → Bool) : List Char → Nat
  | [] => 0
  | c :: cs => if p c ∧ c ≠ EOF_CHAR then eatWhileCount p cs + 1 else 0

/-- Mirrors `Lexer::len_eat_while`: bumps while the predicate holds and
the peeked character is not `EOF_CHAR`, returning the number eaten.  Each
bump advances `pos` by one and pops one character, so the loop's effect
on the state is adding the eaten count to `pos` and dropping that many
characters. -/
def Lexer.len_eat_while (lx : Lexer) (p : Char → Bool) : Nat × Lexer :=
  let n := eatWhileCount p lx.chars_peek
  (n, { lx with pos := lx.pos + n, chars_peek := lx.chars_peek.drop n })

/-- Mirrors `Lexer::number_err`: eats trailing digits, adds `eaten + 1` to
`next_len`, and fails with the `LexError` "expected number after
`<err_val>`" when no digit was eaten. -/
def Lexer.number_err (lx : Lexer) (next_len : Nat) (err_val : String) :
    Outcome (Nat × Lexer) :=
  let r := lx.len_eat_while isDigitChar
  let inc := r.1 + 1
  if inc = 1 then
    .err (Error.new (s!"expected number after `{err_val}`") .LexError
      (Pos.new r.2.pos (r.2.pos + 1)))
  else
    .ok (next_len + inc, r.2)

/-- Mirrors `Lexer::number`.  Note the faithful reproduction of the source
in the bare-exponent branch (`10E100`): it reports the marker as `"."`,
not as the actual `e`/`E` character. -/
def Lexer.number (lx : Lexer) : Outcome (Token × Lexer) :=
  let r0 := lx.len_eat_while isDigitChar
  let next_len := r0.1 + 1
  let lx0 := r0.2
  if lx0.peek_char = '.' then
    let lx1 := (lx0.bump_char).2
    (lx1.number_err next_len ".").bind fun (next_len, lx2) =>
      let next_tok := lx2.peek_char
      if next_tok = 'e' ∨ next_tok = 'E' then
        let lx3 := (lx2.bump_char).2
        (lx3.number_err next_len (if next_tok = 'e' then "e" else "E")).bind
          fun (next_len, lx4) =>
            (lx4.crate_tok .Float next_len).map (·, lx4)
      else
        (lx2.crate_tok .Float next_len).map (·, lx2)
  else if lx0.peek_char = 'e' ∨ lx0.peek_char = 'E' then
    let lx1 := (lx0.bump_char).2
    (lx1.number_err next_len ".").bind fun (next_len, lx2) =>
      (lx2.crate_tok .Float next_len).map (·, lx2)
  else
    (lx0.crate_tok .Integer next_len).map (·, lx0)

/-- Mirrors `Lexer::identifier`: eats the identifier continuation, slices
the text by bytes (panicking off character boundaries exactly as
`crate_tok` does), and classifies `as`/`true`/`false` keywords. -/
def Lexer.identifier (lx : Lexer) : Outcome (Token × Lexer) :=
  let r := lx.len_eat_while is_id_continue
  let next_len := r.1 + 1
  let lx1 := r.2
  match byteSlice lx1.file_contents (lx1.pos - next_len) lx1.pos with
  | none => .panic "byte index is not a char boundary"
  | some cs =>
      let ident := String.mk cs
      let ty : TokenType :=
        if ident = "as" then .Operator .As
        else if ident = "true" then .TRUE
        else if ident = "false" then .FALSE
        else .Identifier
      .ok (⟨ty, ident, ⟨lx1.pos - next_len, lx1.pos⟩⟩, lx1)

/-- Operator table of `Lexer::new_literal` for the single-character
operator characters; `none` corresponds to the `panic!("Bad operator
given!")` arm. -/
def singleCharOp (c : Char) : Option Operator :=
  if c = '+' then some .Add
  else if c = '-' then some .Sub
  else if c = '/' then some .Div
  else if c = '*' then some .Mul
  else if c = '%' then some .Mod
  else if c = '&' then some .BAnd
  else if c = '|' then some .BOr
  else if c = '~' then some .BNot
  else if c = '!' then some .LNot
  else if c = '>' then some .GT
  else if c = '<' then some .LT
  else if c = '^' then some .BXor
  else none

/-- Mirrors `Lexer::new_literal`: a one-character token with empty text
and span `{pos - 1, pos}`; unknown characters hit the `panic!`. -/
def Lexer.new_literal (lx : Lexer) (c : Char) : Outcome Token :=
  if c = '(' then .ok ⟨.LP, "", ⟨lx.pos - 1, lx.pos⟩⟩
  else if c = ')' then .ok ⟨.RP, "", ⟨lx.pos - 1, lx.pos⟩⟩
  else
    match singleCharOp c with
    | some op => .ok ⟨.Operator op, "", ⟨lx.pos - 1, lx.pos⟩⟩
    | none => .panic "Bad operator given!"

/-- Mirrors `Lexer::double_op`: a two-character operator token with span
`{pos - 1, pos + 1}`, then a bump past the second character. -/
def Lexer.double_op (lx : Lexer) (tok_type : Operator) : Token × Lexer :=
  (⟨.Operator tok_type, "", ⟨lx.pos - 1, lx.pos + 1⟩⟩, (lx.bump_char).2)

/-- Mirrors `Lexer::e`: the "unrecognized character" `LexError`. -/
def Lexer.e (lx : Lexer) (current : Char) : Error :=
  Error.new (s!"unrecognized character {current}") .LexError
    (Pos.new lx.pos (lx.pos + 1))

/-- Dispatch for `=`, `>`, `<` (the last three `double_match!`-style arms
of the `tokenize` loop). -/
def Lexer.lexStepCmp (lx : Lexer) (current : Char) :
    Outcome (Option Token × Lexer) :=
  if current = '=' then
    if lx.peek_char = '=' then
      .ok (some (lx.double_op .Eql).1, (lx.double_op .Eql).2)
    else .err (lx.e current)
  else if current = '>' then
    if lx.peek_char = '=' then
      .ok (some (lx.double_op .GE).1, (lx.double_op .GE).2)
    else if lx.peek_char = '>' then
      .ok (some (lx.double_op .BitShiftR).1, (lx.double_op .BitShiftR).2)
    else (lx.new_literal '>').map (fun t => (some t, lx))
  else if current = '<' then
    if lx.peek_char = '=' then
      .ok (some (lx.double_op .LE).1, (lx.double_op .LE).2)
    else if lx.peek_char = '<' then
      .ok (some (lx.double_op .BitShiftL).1, (lx.double_op .BitShiftL).2)
    else (lx.new_literal '<').map (fun t => (some t, lx))
  else
    .err (lx.e current)

/-- Operator-character dispatch of the `tokenize` loop (the arms below
the digit/whitespace/identifier tests); the `double_match!` expansions
are inlined arm by arm, with the `=`/`>`/`<` arms in `lexStepCmp`. -/
def Lexer.lexStepOp (lx : Lexer) (current : Char) :
    Outcome (Option Token × Lexer) :=
  if current = '+' ∨ current = '-' ∨ current = '~' ∨ current = '^' ∨
      current = '%' ∨ current = '(' ∨ current = ')' then
    (lx.new_literal current).map (fun t => (some t, lx))
  else if current = '!' then
    if lx.peek_char = '=' then
      .ok (some (lx.double_op .NEql).1, (lx.double_op .NEql).2)
    else (lx.new_literal '!').map (fun t => (some t, lx))
  else if current = '|' then
    if lx.peek_char = '|' then
      .ok (some (lx.double_op .LOr).1, (lx.double_op .LOr).2)
    else (lx.new_literal '|').map (fun t => (some t, lx))
  else if current = '&' then
    if lx.peek_char = '&' then
      .ok (some (lx.double_op .LAnd).1, (lx.double_op .LAnd).2)
    else (lx.new_literal '&').map (fun t => (some t, lx))
  else if current = '*' then
    if lx.peek_char = '*' then
      .ok (some (lx.double_op .Pow).1, (lx.double_op .Pow).2)
    else (lx.new_literal '*').map (fun t => (some t, lx))
  else if current = '/' then
    if lx.peek_char = '/' then
      .ok (some (lx.double_op .IntDiv).1, (lx.double_op .IntDiv).2)
    else (lx.new_literal '/').map (fun t => (some t, lx))
  else
    lx.lexStepCmp current

/-- Body of one iteration of the `tokenize` loop: dispatch on the current
character.  Returns the token to push (`none` for whitespace) and the new
state. -/
def Lexer.lexStep (lx : Lexer) (current : Char) :
    Outcome (Option Token × Lexer) :=
  if '0' ≤ current ∧ current ≤ '9' then
    (lx.number).map (fun r => (some r.1, r.2))
  else if is_whitespace current then
    .ok (none, lx)
  else if is_id_start current then
    (lx.identifier).map (fun r => (some r.1, r.2))
  else
    lx.lexStepOp current

/-- Inversion for `Outcome.bind` landing in `ok`. -/
theorem Outcome.bind_eq_ok {α β : Type} {o : Outcome α} {f : α → Outcome β}
    {b : β} : o.bind f = .ok b ↔ ∃ a, o = .ok a ∧ f a = .ok b := by
  cases o <;> simp [Outcome.bind]

/-- Inversion for `Outcome.map` landing in `ok`. -/
theorem Outcome.map_eq_ok {α β : Type} {o : Outcome α} {f : α → β}
    {b : β} : o.map f = .ok b ↔ ∃ a, o = .ok a ∧ f a = b := by
  cases o <;> simp [Outcome.map]

/-- Relation between a lexer state and any state reachable from it by
scanning: the source is unchanged, the remaining characters are a suffix
of what they were, and `pos` grows exactly by the number of characters
consumed (so `pos + remaining` is invariant). -/
def Lexer.Advances (lx lx' : Lexer) : Prop :=
  lx'.file_contents = lx.file_contents ∧
  lx'.chars_peek <:+ lx.chars_peek ∧
  lx'.pos + lx'.chars_peek.length = lx.pos + lx.chars_peek.length

theorem Lexer.Advances.refl (lx : Lexer) : lx.Advances lx :=
  ⟨rfl, List.suffix_refl _, rfl⟩

theorem Lexer.Advances.trans {lx₁ lx₂ lx₃ : Lexer}
    (h₁ : lx₁.Advances lx₂) (h₂ : lx₂.Advances lx₃) : lx₁.Advances lx₃ :=
  ⟨h₂.1.trans h₁.1, h₂.2.1.trans h₁.2.1, h₂.2.2.trans h₁.2.2⟩

theorem Lexer.Advances.length_le {lx lx' : Lexer} (h : lx.Advances lx') :
    lx'.chars_peek.length ≤ lx.chars_peek.length :=
  h.2.1.length_le

/-- Bumping from a state whose peek is a real character advances. -/
theorem Lexer.bump_advances_of_peek_ne {lx : Lexer}
    (h : lx.peek_char ≠ EOF_CHAR) : lx.Advances (lx.bump_char).2 := by
  cases hc : lx.chars_peek with
  | nil => exact absurd (by simp [Lexer.peek_char, hc]) h
  | cons c cs =>
      refine ⟨by simp [Lexer.bump_char, hc], ?_, ?_⟩
      · simp only [Lexer.bump_char, hc]
        exact List.suffix_cons c cs
      · simp only [Lexer.bump_char, hc, List.length_cons]
        omega

theorem eatWhileCount_le (p : Char → Bool) (cs : List Char) :
    eatWhileCount p cs ≤ cs.length := by
  induction cs with
  | nil => simp [eatWhileCount]
  | cons c cs ih =>
      simp only [eatWhileCount, List.length_cons]
      split
      · omega
      · omega

theorem Lexer.len_eat_while_advances (lx : Lexer) (p : Char → Bool) :
    lx.Advances (lx.len_eat_while p).2 := by
  refine ⟨rfl, List.drop_suffix _ _, ?_⟩
  have h := eatWhileCount_le p lx.chars_peek
  simp [Lexer.len_eat_while, List.length_drop]
  omega

theorem Lexer.number_err_advances {lx : Lexer} {n : Nat} {ev : String} {r}
    (h : lx.number_err n ev = .ok r) : lx.Advances r.2 := by
  unfold Lexer.number_err at h
  dsimp only at h
  split at h
  · exact absurd h (by simp)
  · injection h with h
    subst h
    exact Lexer.len_eat_while_advances lx isDigitChar

theorem Lexer.crate_tok_state {lx : Lexer} {ty n t}
    (h : lx.crate_tok ty n = .ok t) :
    t.pos = ⟨lx.pos - n, lx.pos⟩ ∧ t.tok_type = ty := by
  unfold Lexer.crate_tok at h
  split at h
  · injection h with h
    subst h
    exact ⟨rfl, rfl⟩
  · exact absurd h (by simp)

theorem Lexer.number_advances {lx : Lexer} {r}
    (h : lx.number = .ok r) : lx.Advances r.2 := by
  unfold Lexer.number at h
  dsimp only at h
  have h0 : lx.Advances (lx.len_eat_while isDigitChar).2 :=
    Lexer.len_eat_while_advances lx isDigitChar
  split at h
  · rename_i hdot
    rw [Outcome.bind_eq_ok] at h
    obtain ⟨⟨n1, lxa⟩, ha, h⟩ := h
    have h1 := (h0.trans (Lexer.bump_advances_of_peek_ne
      (by rw [hdot]; decide))).trans (Lexer.number_err_advances ha)
    dsimp only at h
    split at h
    · rename_i hexp
      rw [Outcome.bind_eq_ok] at h
      obtain ⟨⟨n2, lxb⟩, hb, h⟩ := h
      have h2 := (h1.trans (Lexer.bump_advances_of_peek_ne
        (by rcases hexp with he | he <;> rw [he] <;> decide))).trans
        (Lexer.number_err_advances hb)
      dsimp only at h
      rw [Outcome.map_eq_ok] at h
      obtain ⟨t, _, h⟩ := h
      rw [← h]
      exact h2
    · rw [Outcome.map_eq_ok] at h
      obtain ⟨t, _, h⟩ := h
      rw [← h]
      exact h1
  · split at h
    · rename_i hee
      rw [Outcome.bind_eq_ok] at h
      obtain ⟨⟨n1, lxa⟩, ha, h⟩ := h
      have h1 := (h0.trans (Lexer.bump_advances_of_peek_ne
        (by rcases hee with he | he <;> rw [he] <;> decide))).trans
        (Lexer.number_err_advances ha)
      dsimp only at h
      rw [Outcome.map_eq_ok] at h
      obtain ⟨t, _, h⟩ := h
      rw [← h]
      exact h1
    · rw [Outcome.map_eq_ok] at h
      obtain ⟨t, _, h⟩ := h
      rw [← h]
      exact h0

theorem Lexer.identifier_advances {lx : Lexer} {r}
    (h : lx.identifier = .ok r) : lx.Advances r.2 := by
  unfold Lexer.identifier at h
  dsimp only at h
  split at h
  · exact absurd h (by simp)
  · injection h with h
    subst h
    exact Lexer.len_eat_while_advances lx is_id_continue

theorem Lexer.double_op_advances {lx : Lexer} {op : Operator}
    (h : lx.peek_char ≠ EOF_CHAR) : lx.Advances (lx.double_op op).2 :=
  Lexer.bump_advances_of_peek_ne h

set_option maxHeartbeats 1000000 in
/-- A successful `lexStepCmp` only consumes characters. -/
theorem Lexer.lexStepCmp_advances {lx : Lexer} {c : Char} {r}
    (h : lx.lexStepCmp c = .ok r) : lx.Advances r.2 := by
  unfold Lexer.lexStepCmp at h
  split_ifs at h
  all_goals
    first
    | (rw [Outcome.map_eq_ok] at h
       obtain ⟨a, ha, h⟩ := h
       rw [← h]
       exact Lexer.Advances.refl lx)
    | (injection h with h
       rw [← h]
       dsimp only
       rename_i hpk
       exact Lexer.double_op_advances (by rw [hpk]; decide))

set_option maxHeartbeats 1000000 in
/-- A successful `lexStepOp` only consumes characters. -/
theorem Lexer.lexStepOp_advances {lx : Lexer} {c : Char} {r}
    (h : lx.lexStepOp c = .ok r) : lx.Advances r.2 := by
  unfold Lexer.lexStepOp at h
  split_ifs at h
  all_goals
    first
    | (rw [Outcome.map_eq_ok] at h
       obtain ⟨a, ha, h⟩ := h
       rw [← h]
       exact Lexer.Advances.refl lx)
    | (injection h with h
       rw [← h]
       dsimp only
       rename_i hpk
       exact Lexer.double_op_advances (by rw [hpk]; decide))
    | exact Lexer.lexStepCmp_advances h

set_option maxHeartbeats 1000000 in
/-- A successful `lexStep` only consumes characters: it advances the
state. -/
theorem Lexer.lexStep_advances {lx : Lexer} {c : Char} {r}
    (h : lx.lexStep c = .ok r) : lx.Advances r.2 := by
  unfold Lexer.lexStep at h
  split_ifs at h
  all_goals
    first
    | (rw [Outcome.map_eq_ok] at h
       obtain ⟨a, ha, h⟩ := h
       rw [← h]
       first
       | exact Lexer.number_advances ha
       | exact Lexer.identifier_advances ha)
    | (injection h with h
       rw [← h]
       exact Lexer.Advances.refl lx)
    | exact Lexer.lexStepOp_advances h

/-- A successful `lexStep` never grows the remaining characters (the
scanning helpers only consume). -/
theorem Lexer.lexStep_length_le {lx : Lexer} {c : Char} {r}
    (h : lx.lexStep c = .ok r) :
    r.2.chars_peek.length ≤ lx.chars_peek.length :=
  (Lexer.lexStep_advances h).length_le

/-- Mirrors the `while` loop of `Lexer::tokenize` plus the final
`EndOfFile` push: bump, stop on `EOF_CHAR`, otherwise dispatch and loop.
The loop is driven by an explicit iteration budget so that the recursion
is structural: every non-final iteration consumes at least the bumped
character, so the budget `tokenize` supplies (one more than the number of
remaining characters) is never exhausted — the `fuel = 0` arm is
unreachable from `tokenize` and is marked as a panic. -/
def Lexer.tokenizeLoop : Nat → Lexer → List Token → Outcome (List Token)
  | 0, _, _ => .panic "unreachable: tokenize loop budget exhausted"
  | fuel + 1, lx, tokens =>
      match lx.bump_char with
      | (current, lx1) =>
          if current = EOF_CHAR then
            .ok (tokens ++ [⟨.EOF, "", ⟨lx1.pos, lx1.pos⟩⟩])
          else
            match lx1.lexStep current with
            | .err e => .err e
            | .panic m => .panic m
            | .ok (otok, lx2) =>
                tokenizeLoop fuel lx2 (tokens ++ otok.toList)

/-- Mirrors `Lexer::tokenize`. -/
def Lexer.tokenize (lx : Lexer) : Outcome (List Token) :=
  Lexer.tokenizeLoop (lx.chars_peek.length + 1) lx []

/-- Whole-string entry point, `Lexer::new(source).tokenize()`. -/
def tokenize (source : String) : Outcome (List Token) :=
  (Lexer.new source).tokenize

/-! ## Machine-integer arithmetic (`i128`, `i32`, `u32`)

Rust's 128-bit signed arithmetic is modelled on `Int` with explicit range
conditions.  `checked_*` return `none` exactly when the Rust methods
return `None`. -/

/-- `i128::MIN`. -/
def i128Min : ℤ := -(2 ^ 127)

/-- `i128::MAX`. -/
def i128Max : ℤ := 2 ^ 127 - 1

/-- Membership in the `i128` range. -/
def inI128 (n : ℤ) : Bool := i128Min ≤ n ∧ n ≤ i128Max

/-- `i128::checked_add`. -/
def checked_add (a b : ℤ) : Option ℤ :=
  if inI128 (a + b) then some (a + b) else none

/-- `i128::checked_sub`. -/
def checked_sub (a b : ℤ) : Option ℤ :=
  if inI128 (a - b) then some (a - b) else none

/-- `i128::checked_mul`. -/
def checked_mul (a b : ℤ) : Option ℤ :=
  if inI128 (a * b) then some (a * b) else none

/-- `i128::checked_div`: `None` on a zero divisor and on the overflowing
`i128::MIN / -1`; otherwise Rust division truncates toward zero
(`Int.tdiv`). -/
def checked_div (a b : ℤ) : Option ℤ :=
  if b = 0 ∨ (a = i128Min ∧ b = -1) then none else some (a.tdiv b)

/-- `i128::checked_pow` with a `u32` exponent: `None` exactly when the
exact power leaves the `i128` range. -/
def checked_pow (a : ℤ) (e : ℕ) : Option ℤ :=
  if inI128 (a ^ e) then some (a ^ e) else none

/-- `u32::try_from(i128)`. -/
def u32_try_from (n : ℤ) : Option ℕ :=
  if 0 ≤ n ∧ n < 2 ^ 32 then some n.toNat else none

/-- `i32::try_from(i128)`. -/
def i32_try_from (n : ℤ) : Option ℤ :=
  if -(2 ^ 31) ≤ n ∧ n ≤ 2 ^ 31 - 1 then some n else none

/-- Two's-complement wrap-around into the `i128` range (used by the
shift-left bit semantics, which discards shifted-out bits). -/
def wrap128 (n : ℤ) : ℤ := (n + 2 ^ 127).emod (2 ^ 128) - 2 ^ 127

/-- `i128::checked_shl`: `None` only when the shift amount is `>= 128`;
the value itself wraps (bits are discarded, no overflow check). -/
def checked_shl (a : ℤ) (e : ℕ) : Option ℤ :=
  if e < 128 then some (wrap128 (a * 2 ^ e)) else none

/-- `i128::checked_shr`: arithmetic right shift (floor division by a
power of two); `None` only when the shift amount is `>= 128`. -/
def checked_shr (a : ℤ) (e : ℕ) : Option ℤ :=
  if e < 128 then some (a.fdiv (2 ^ e)) else none

/-- Value of a non-empty all-digit character list. -/
def digitsVal (cs : List Char) : Option ℕ :=
  if cs ≠ [] ∧ cs.all isDigitChar then
    some (cs.foldl (fun acc c => acc * 10 + (c.toNat - '0'.toNat)) 0)
  else none

/-- `str::parse::<i128>`: optional `+`/`-` sign, one or more ASCII
digits, value within the `i128` range. -/
def parseI128 (s : String) : Option ℤ :=
  let sd : ℤ × List Char :=
    match s.data with
    | '+' :: cs => (1, cs)
    | '-' :: cs => (-1, cs)
    | cs => (1, cs)
  match digitsVal sd.2 with
  | none => none
  | some n => if inI128 (sd.1 * n) then some (sd.1 * n) else none

/-! ## The `f64` model

The evaluator is parametric over the type of `f64` values and the
operations the code applies to them, so that the structural theorems hold
for IEEE-754 binary64 in particular.  The concrete instance `RatF64`
below interprets the carrier as `ℚ` (every finite `f64` is a rational)
and is used only on code paths whose operations are exact in binary64. -/

/-- Bundle of the `f64` operations used by `exec.rs`. -/
structure FloatModel (F : Type) where
  fadd : F → F → F
  fsub : F → F → F
  fmul : F → F → F
  fdiv : F → F → F
  frem : F → F → F
  fpowf : F → F → F
  fneg : F → F
  fabs : F → F
  fround : F → F
  fbeq : F → F → Bool
  fblt : F → F → Bool
  fbgt : F → F → Bool
  fble : F → F → Bool
  fbge : F → F → Bool
  ofI128 : ℤ → F
  ofI32 : ℤ → F
  ofI8 : ℤ → F
  asI128 : F → ℤ
  parseF64 : String → Option F
  displayF : F → String
  cPI : F
  cE : F
  cSQRT2 : F
  lit2 : F

/-- Truncation toward zero of a rational (`f64 -> integer` cast step). -/
def ratTrunc (q : ℚ) : ℤ := if 0 ≤ q then ⌊q⌋ else ⌈q⌉

/-- Round to nearest, ties away from zero (`f64::round` semantics). -/
def ratRound (q : ℚ) : ℤ := if 0 ≤ q then ⌊q + 1 / 2⌋ else ⌈q - 1 / 2⌉

/-- `f64 as i128`: truncate toward zero and saturate to the `i128`
range. -/
def f64AsI128 (q : ℚ) : ℤ := max i128Min (min i128Max (ratTrunc q))

/-- `f64 % f64` (`fmod`) on finite rational values. -/
def f64Rem (a b : ℚ) : ℚ := a - b * (ratTrunc (a / b) : ℤ)

/-- Exact binary64 value of `std::f64::consts::PI`
(`0x400921FB54442D18`). -/
def f64PI : ℚ := 884279719003555 / 281474976710656

/-- Exact binary64 value of `std::f64::consts::E`
(`0x4005BF0A8B145769`). -/
def f64E : ℚ := 6121026514868073 / 2251799813685248

/-- Exact binary64 value of `std::f64::consts::SQRT_2`
(`0x3FF6A09E667F3BCD`). -/
def f64SQRT2 : ℚ := 6369051672525773 / 4503599627370496

/-- Rational interpretation of the `f64` operations.  Exact for the code
paths used in the claims (casts from `i32`, rounding/truncating integral
values, multiplication by two, divisions with exactly representable
quotient); `fpowf` has no exact rational counterpart and is given a
placeholder value — no claim depends on it — and `parseF64` likewise
(float-literal evaluation is outside every claim). -/
def RatF64 : FloatModel ℚ where
  fadd := (· + ·)
  fsub := (· - ·)
  fmul := (· * ·)
  fdiv := (· / ·)
  frem := f64Rem
  fpowf := fun _ _ => 0
  fneg := (- ·)
  fabs := fun q => |q|
  fround := fun q => (ratRound q : ℚ)
  fbeq := fun a b => a = b
  fblt := fun a b => a < b
  fbgt := fun a b => b < a
  fble := fun a b => a ≤ b
  fbge := fun a b => b ≤ a
  ofI128 := fun n => (n : ℚ)
  ofI32 := fun n => (n : ℚ)
  ofI8 := fun n => (n : ℚ)
  asI128 := f64AsI128
  parseF64 := fun _ => none
  displayF := fun q => toString q
  cPI := f64PI
  cE := f64E
  cSQRT2 := f64SQRT2
  lit2 := 2

/-! ## AST contract (`ast.rs`, not under `src/`; modelled from the spec) -/

mutual

/-- Modelled from the spec: an AST node `{expr: ExpressionKind, pos}`. -/
inductive Expression where
  | mk (expr : ExpressionKind) (pos : Pos)

/-- Modelled from the spec: the tagged union of expression shapes; the
`Infix`/`Prefix` payload structs are inlined as constructor fields. -/
inductive ExpressionKind where
  | True
  | False
  | Integer (val : String)
  | Float (val : String)
  | Ident (val : String)
  | InfixOp (op : Operator) (left : Expression) (right : Expression)
  | PrefixOp (op : Operator) (value : Expression)

end

/-- Field accessor `.expr`. -/
def Expression.expr : Expression → ExpressionKind
  | ⟨e, _⟩ => e

/-- Field accessor `.pos`. -/
def Expression.pos : Expression → Pos
  | ⟨_, p⟩ => p

/-- Modelled from the spec: `fmt::Display` for operators (`ast.rs` is not
under `src/`); only used inside "not implemented yet" messages, which no
claim inspects. -/
def Operator.display : Operator → String
  | .Add => "add" | .Sub => "sub" | .Mul => "mul" | .Div => "div"
  | .IntDiv => "intdiv" | .Mod => "mod" | .Pow => "pow"
  | .BitShiftL => "bitshiftl" | .BitShiftR => "bitshiftr"
  | .BAnd => "band" | .BOr => "bor" | .BXor => "bxor" | .BNot => "bnot"
  | .LAnd => "land" | .LOr => "lor" | .LNot => "lnot"
  | .As => "as" | .Eql => "eql" | .NEql => "neql"
  | .LT => "lt" | .LE => "le" | .GT => "gt" | .GE => "ge"

/-- Modelled from the spec: `fmt::Display` for expression kinds (`ast.rs`
is not under `src/`); only used inside the "invalid type for `as` type
operand" message, whose exact rendering no claim inspects. -/
def ExpressionKind.display : ExpressionKind → String
  | .True => "true"
  | .False => "false"
  | .Integer v => v
  | .Float v => v
  | .Ident v => v
  | .InfixOp op _ _ => s!"infix {op.display} expression"
  | .PrefixOp op _ => s!"prefix {op.display} expression"

/-! ## Evaluator (`src/core/eval/exec.rs`)

`ExecutionExpr` and `EE` mirror the value-and-span pair of the source;
every operation `EE::f` from `exec.rs` becomes `EE.f` below, with the
`from_expr!`-produced success span written out in each arm (which is
`calc_pos` for the arithmetic/comparison operators but the *left span*
`self.pos` for the logical and bitwise binary operators, exactly as in
the source).  Rust panics become `Outcome.panic` (debug-profile overflow
semantics for unary negation/abs; divisor panics for `%` happen in every
profile). -/

/-- Mirrors `enum ExecutionExpr { Integer(i128), Float(f64), Bool(bool) }`. -/
inductive ExecutionExpr (F : Type) where
  | Integer (val : ℤ)
  | Float (val : F)
  | Bool (val : Bool)
deriving DecidableEq, Repr

/-- Mirrors `ExecutionExpr::display_type`. -/
def ExecutionExpr.display_type {F : Type} : ExecutionExpr F → String
  | .Integer _ => "`integer`"
  | .Float _ => "`float`"
  | .Bool _ => "`boolean`"

/-- Mirrors `fmt::Display for ExecutionExpr`. -/
def ExecutionExpr.display {F : Type} (FM : FloatModel F) :
    ExecutionExpr F → String
  | .Integer val => toString val
  | .Float val => FM.displayF val
  | .Bool val => toString val

/-- Mirrors the derived `PartialEq for ExecutionExpr`: same-variant
payload comparison (with `f64 ==` on floats), `false` across variants. -/
def execBeq {F : Type} (FM : FloatModel F) :
    ExecutionExpr F → ExecutionExpr F → Bool
  | .Integer a, .Integer b => a = b
  | .Float a, .Float b => FM.fbeq a b
  | .Bool a, .Bool b => a = b
  | _, _ => false

/-- Mirrors `struct EE { value: ExecutionExpr, pos: Pos }`. -/
structure EE (F : Type) where
  value : ExecutionExpr F
  pos : Pos
deriving DecidableEq, Repr

/-- Mirrors `EE::new`. -/
def EE.new {F : Type} (expr : ExecutionExpr F) (pos : Pos) : EE F :=
  ⟨expr, pos⟩

/-- Mirrors `EE::calc_pos`: the combined span `{left.start, right.end}`. -/
def EE.calc_pos {F : Type} (l r : EE F) : Pos :=
  Pos.new l.pos.start r.pos.«end»

/-- Mirrors `EE::gen_type_err`. -/
def EE.gen_type_err {F : Type} (l r : EE F) (operation : String) : Error :=
  Error.new
    (s!"cannot apply operator `{operation}` on types " ++
      l.value.display_type ++ " and " ++ r.value.display_type)
    .TypeError (l.calc_pos r)

/-- Mirrors `EE::add`. -/
def EE.add {F : Type} (FM : FloatModel F) (l r : EE F) : Outcome (EE F) :=
  match l.value, r.value with
  | .Integer left, .Integer right =>
      match checked_add left right with
      | some val => .ok ⟨.Integer val, l.calc_pos r⟩
      | none => .err (Error.new
          (s!"failed to add `{left}` and `{right}`: value overflowed")
          .RuntimeError (l.calc_pos r))
  | .Float left, .Float right => .ok ⟨.Float (FM.fadd left right), l.calc_pos r⟩
  | _, _ => .err (l.gen_type_err r "add")

/-- Mirrors `EE::sub`. -/
def EE.sub {F : Type} (FM : FloatModel F) (l r : EE F) : Outcome (EE F) :=
  match l.value, r.value with
  | .Integer left, .Integer right =>
      match checked_sub left right with
      | some val => .ok ⟨.Integer val, l.calc_pos r⟩
      | none => .err (Error.new
          (s!"failed to subtract `{right}` from `{left}`: value overflowed")
          .RuntimeError (l.calc_pos r))
  | .Float left, .Float right => .ok ⟨.Float (FM.fsub left right), l.calc_pos r⟩
  | _, _ => .err (l.gen_type_err r "subtract")

/-- Mirrors `EE::mul` (the overflow message swaps the operands, as the
source does). -/
def EE.mul {F : Type} (FM : FloatModel F) (l r : EE F) : Outcome (EE F) :=
  match l.value, r.value with
  | .Integer left, .Integer right =>
      match checked_mul left right with
      | some val => .ok ⟨.Integer val, l.calc_pos r⟩
      | none => .err (Error.new
          (s!"failed to multiply `{right}` by `{left}`: value overflowed")
          .RuntimeError (l.calc_pos r))
  | .Float left, .Float right => .ok ⟨.Float (FM.fmul left right), l.calc_pos r⟩
  | _, _ => .err (l.gen_type_err r "multiply")

/-- Mirrors `EE::modulo`: the raw `%` with no guard, so a zero divisor
(or `i128::MIN % -1`) is a Rust panic, never an `Error`. -/
def EE.modulo {F : Type} (FM : FloatModel F) (l r : EE F) : Outcome (EE F) :=
  match l.value, r.value with
  | .Integer left, .Integer right =>
      if right = 0 then
        .panic "attempt to calculate the remainder with a divisor of zero"
      else if left = i128Min ∧ right = -1 then
        .panic "attempt to calculate the remainder with overflow"
      else .ok ⟨.Integer (left.tmod right), l.calc_pos r⟩
  | .Float left, .Float right => .ok ⟨.Float (FM.frem left right), l.calc_pos r⟩
  | _, _ => .err (l.gen_type_err r "modulo")

/-- Mirrors `EE::div`: integer operands are cast to `f64` and divided as
floats — there is no integer result, no overflow check and no
divide-by-zero error path. -/
def EE.div {F : Type} (FM : FloatModel F) (l r : EE F) : Outcome (EE F) :=
  match l.value, r.value with
  | .Integer left, .Integer right =>
      .ok ⟨.Float (FM.fdiv (FM.ofI128 left) (FM.ofI128 right)), l.calc_pos r⟩
  | .Float left, .Float right => .ok ⟨.Float (FM.fdiv left right), l.calc_pos r⟩
  | _, _ => .err (l.gen_type_err r "divide")

/-- Mirrors `EE::int_div` (both overflow messages put the right operand
first, as the source does; the float branch casts both operands to
`i128` first). -/
def EE.int_div {F : Type} (FM : FloatModel F) (l r : EE F) : Outcome (EE F) :=
  match l.value, r.value with
  | .Integer left, .Integer right =>
      match checked_div left right with
      | some val => .ok ⟨.Integer val, l.calc_pos r⟩
      | none => .err (Error.new
          (s!"failed to integer divide `{right}` by `{left}`: value overflowed")
          .RuntimeError (l.calc_pos r))
  | .Float left, .Float right =>
      match checked_div (FM.asI128 left) (FM.asI128 right) with
      | some val => .ok ⟨.Integer val, l.calc_pos r⟩
      | none => .err (Error.new
          (s!"failed to integer divide `{FM.displayF right}` by " ++
            s!"{FM.displayF left}: value overflowed")
          .RuntimeError (l.calc_pos r))
  | _, _ => .err (l.gen_type_err r "integer divide")

/-- Mirrors `EE::pow` (the overflow message swaps the operands, as the
source does; the `u32` conversion failure message renders Rust's
`TryFromIntError`). -/
def EE.pow {F : Type} (FM : FloatModel F) (l r : EE F) : Outcome (EE F) :=
  match l.value, r.value with
  | .Integer left, .Integer right =>
      match u32_try_from right with
      | none => .err (Error.new
          (s!"failed to raise `{left}` to the power of `{right}`: " ++
            "out of range integral type conversion attempted")
          .RuntimeError (l.calc_pos r))
      | some e =>
          match checked_pow left e with
          | some val => .ok ⟨.Integer val, l.calc_pos r⟩
          | none => .err (Error.new
              (s!"failed to raise `{right}` to the power of `{left}`: " ++
                "value overflowed")
              .RuntimeError (l.calc_pos r))
  | .Float left, .Float right => .ok ⟨.Float (FM.fpowf left right), l.calc_pos r⟩
  | _, _ => .err (l.gen_type_err r "power")

/-- Mirrors `EE::lnot`: logical negation of a non-`Bool` is rejected with
a `RuntimeError` (not a `TypeError`) in the source. -/
def EE.lnot {F : Type} (l : EE F) : Outcome (EE F) :=
  match l.value with
  | .Bool val => .ok ⟨.Bool (!val), l.pos⟩
  | _ => .err (Error.new
      (s!"cannot logically negate `{l.value.display_type}`")
      .RuntimeError l.pos)

/-- Mirrors `EE::land`: note the success span is `self.pos` (the left
operand's span), not the combined span. -/
def EE.land {F : Type} (l r : EE F) : Outcome (EE F) :=
  match l.value, r.value with
  | .Bool left, .Bool right => .ok ⟨.Bool (left && right), l.pos⟩
  | _, _ => .err (l.gen_type_err r "logical and")

/-- Mirrors `EE::lor` (success span `self.pos`, as in the source). -/
def EE.lor {F : Type} (l r : EE F) : Outcome (EE F) :=
  match l.value, r.value with
  | .Bool left, .Bool right => .ok ⟨.Bool (left || right), l.pos⟩
  | _, _ => .err (l.gen_type_err r "logical or")

/-- Mirrors `EE::band` (success span `self.pos`, as in the source). -/
def EE.band {F : Type} (l r : EE F) : Outcome (EE F) :=
  match l.value, r.value with
  | .Integer left, .Integer right => .ok ⟨.Integer (Int.land left right), l.pos⟩
  | _, _ => .err (l.gen_type_err r "bitwise and")

/-- Mirrors `EE::bor` (success span `self.pos`, as in the source). -/
def EE.bor {F : Type} (l r : EE F) : Outcome (EE F) :=
  match l.value, r.value with
  | .Integer left, .Integer right => .ok ⟨.Integer (Int.lor left right), l.pos⟩
  | _, _ => .err (l.gen_type_err r "bitwise or")

/-- Mirrors `EE::bxor` (success span `self.pos`, as in the source). -/
def EE.bxor {F : Type} (l r : EE F) : Outcome (EE F) :=
  match l.value, r.value with
  | .Integer left, .Integer right => .ok ⟨.Integer (Int.xor left right), l.pos⟩
  | _, _ => .err (l.gen_type_err r "bitwise xor")

/-- Mirrors `EE::bnot`: bitwise complement of a non-`Integer` is rejected
with a `RuntimeError` (not a `TypeError`) in the source. -/
def EE.bnot {F : Type} (l : EE F) : Outcome (EE F) :=
  match l.value with
  | .Integer val => .ok ⟨.Integer (Int.lnot val), l.pos⟩
  | _ => .err (Error.new
      (s!"cannot bitwise negate `{l.value.display_type}`")
      .RuntimeError l.pos)

/-- Mirrors `EE::bitshift_l`. -/
def EE.bitshift_l {F : Type} (l r : EE F) : Outcome (EE F) :=
  match l.value, r.value with
  | .Integer left, .Integer right =>
      match u32_try_from right with
      | none => .err (Error.new
          (s!"failed to bitshift `{left}` left `{right}`: " ++
            "out of range integral type conversion attempted")
          .RuntimeError (l.calc_pos r))
      | some e =>
          match checked_shl left e with
          | some val => .ok ⟨.Integer val, l.calc_pos r⟩
          | none => .err (Error.new
              (s!"failed to bitshift `{left}` left by `{right}`: overflowed")
              .RuntimeError (l.calc_pos r))
  | _, _ => .err (l.gen_type_err r "left bitshift")

/-- Mirrors `EE::bitshift_r` (including the trailing space in the type
error's operation name, as in the source). -/
def EE.bitshift_r {F : Type} (l r : EE F) : Outcome (EE F) :=
  match l.value, r.value with
  | .Integer left, .Integer right =>
      match u32_try_from right with
      | none => .err (Error.new
          (s!"failed to bitshift `{left}` right `{right}`: " ++
            "out of range integral type conversion attempted")
          .RuntimeError (l.calc_pos r))
      | some e =>
          match checked_shr left e with
          | some val => .ok ⟨.Integer val, l.calc_pos r⟩
          | none => .err (Error.new
              (s!"failed to bitshift `{left}` right by `{right}`: overflowed")
              .RuntimeError (l.calc_pos r))
  | _, _ => .err (l.gen_type_err r "right bitshift ")

/-- Mirrors `EE::as_cast`: the cast target must be the identifier
`"float"` or `"int"`.  Integer-to-float narrows through `i32` first
(`RuntimeError` out of range), then widens infallibly; float-to-int is
`round()` then an `as i128` saturating cast; bool casts go through
`i8`/`i128`.  The produced value keeps the operand's span `self.pos`. -/
def EE.as_cast {F : Type} (FM : FloatModel F) (l : EE F)
    (target_type : Expression) : Outcome (EE F) :=
  match target_type.expr with
  | .Ident tok =>
      if tok = "float" then
        match l.value with
        | .Integer val =>
            match i32_try_from val with
            | some v => .ok ⟨.Float (FM.ofI32 v), l.pos⟩
            | none => .err (Error.new
                (s!"failed to convert `{val}` to `{tok}`: " ++
                  "out of range integral type conversion attempted")
                .RuntimeError l.pos)
        | .Float _ => .ok ⟨l.value, l.pos⟩
        | .Bool val => .ok ⟨.Float (FM.ofI8 (if val then 1 else 0)), l.pos⟩
      else if tok = "int" then
        match l.value with
        | .Integer _ => .ok ⟨l.value, l.pos⟩
        | .Float val => .ok ⟨.Integer (FM.asI128 (FM.fround val)), l.pos⟩
        | .Bool val => .ok ⟨.Integer (if val then 1 else 0), l.pos⟩
      else
        .err (Error.new (s!"unknown type `{tok}`") .TypeError target_type.pos)
  | _ => .err (Error.new
      (s!"invalid type for `as` type operand `{target_type.expr.display}`")
      .TypeError target_type.pos)

/-- Mirrors `EE::neg` (debug-profile panic on negating `i128::MIN`). -/
def EE.neg {F : Type} (FM : FloatModel F) (l : EE F) : Outcome (EE F) :=
  match l.value with
  | .Integer val =>
      if val = i128Min then .panic "attempt to negate with overflow"
      else .ok ⟨.Integer (-val), l.pos⟩
  | .Float val => .ok ⟨.Float (FM.fneg val), l.pos⟩
  | _ => .err (Error.new
      (s!"cannot make type {l.value.display_type} negative")
      .TypeError l.pos)

/-- Mirrors `EE::pos` — absolute value, not identity (the Lean name
avoids the clash with the `pos` field; debug-profile panic on
`i128::MIN.abs()`). -/
def EE.posOp {F : Type} (FM : FloatModel F) (l : EE F) : Outcome (EE F) :=
  match l.value with
  | .Integer val =>
      if val = i128Min then .panic "attempt to negate with overflow"
      else .ok ⟨.Integer |val|, l.pos⟩
  | .Float val => .ok ⟨.Float (FM.fabs val), l.pos⟩
  | _ => .err (Error.new
      (s!"cannot make type {l.value.display_type} positive")
      .TypeError l.pos)

/-- Mirrors `EE::eql`: never an error, any variant pairing allowed. -/
def EE.eql {F : Type} (FM : FloatModel F) (l r : EE F) : Outcome (EE F) :=
  .ok ⟨.Bool (execBeq FM l.value r.value), l.calc_pos r⟩

/-- Mirrors `EE::neql`: the boolean negation of `eql`, never an error. -/
def EE.neql {F : Type} (FM : FloatModel F) (l r : EE F) : Outcome (EE F) :=
  .ok ⟨.Bool (!execBeq FM l.value r.value), l.calc_pos r⟩

/-- Mirrors `EE::lt`. -/
def EE.lt {F : Type} (FM : FloatModel F) (l r : EE F) : Outcome (EE F) :=
  match l.value, r.value with
  | .Integer left, .Integer right => .ok ⟨.Bool (left < right), l.calc_pos r⟩
  | .Float left, .Float right => .ok ⟨.Bool (FM.fblt left right), l.calc_pos r⟩
  | _, _ => .err (l.gen_type_err r "less than")

/-- Mirrors `EE::gt`. -/
def EE.gt {F : Type} (FM : FloatModel F) (l r : EE F) : Outcome (EE F) :=
  match l.value, r.value with
  | .Integer left, .Integer right => .ok ⟨.Bool (right < left), l.calc_pos r⟩
  | .Float left, .Float right => .ok ⟨.Bool (FM.fbgt left right), l.calc_pos r⟩
  | _, _ => .err (l.gen_type_err r "greater than")

/-- Mirrors `EE::lte` (its type-error operation name is "less than", as
in the source). -/
def EE.lte {F : Type} (FM : FloatModel F) (l r : EE F) : Outcome (EE F) :=
  match l.value, r.value with
  | .Integer left, .Integer right => .ok ⟨.Bool (left ≤ right), l.calc_pos r⟩
  | .Float left, .Float right => .ok ⟨.Bool (FM.fble left right), l.calc_pos r⟩
  | _, _ => .err (l.gen_type_err r "less than")

/-- Mirrors `EE::gte` (its type-error operation name is "greater than",
as in the source). -/
def EE.gte {F : Type} (FM : FloatModel F) (l r : EE F) : Outcome (EE F) :=
  match l.value, r.value with
  | .Integer left, .Integer right => .ok ⟨.Bool (right ≤ left), l.calc_pos r⟩
  | .Float left, .Float right => .ok ⟨.Bool (FM.fbge left right), l.calc_pos r⟩
  | _, _ => .err (l.gen_type_err r "greater than")

/-- Mirrors `struct Executer { symbtab: HashMap<&str, EE> }`; the map is
modelled as an association list with distinct keys. -/
structure Executer (F : Type) where
  symbtab : List (String × EE F)

/-- Mirrors `Executer::new`: the constant environment.  Every entry is
built with `Pos::new(0, 0)` by the `map!` macro; `tau` is computed as
`consts::PI * 2.0`. -/
def Executer.new {F : Type} (FM : FloatModel F) : Executer F :=
  ⟨[("pi", EE.new (.Float FM.cPI) (Pos.new 0 0)),
    ("tau", EE.new (.Float (FM.fmul FM.cPI FM.lit2)) (Pos.new 0 0)),
    ("e", EE.new (.Float FM.cE) (Pos.new 0 0)),
    ("sqrt2", EE.new (.Float FM.cSQRT2) (Pos.new 0 0))]⟩

/-- Mirrors `Executer::eval`: recursive tree walk; the left operand is
evaluated before the right, `?` propagates the first failure; the `As`
right operand is passed as unevaluated AST; `Ident` lookup returns the
*stored* `EE` (with the environment entry's span, not the identifier's);
the `Integer`/`Float` literal parse-failure messages render the library
error (`ParseIntError`/`ParseFloatError`) descriptions. -/
def Executer.eval {F : Type} (FM : FloatModel F) (ex : Executer F)
    (ast : Expression) : Outcome (EE F) :=
  match ast with
  | ⟨kind, pos⟩ =>
      match kind with
      | .True => .ok (EE.new (.Bool true) pos)
      | .False => .ok (EE.new (.Bool false) pos)
      | .Integer val =>
          match parseI128 val with
          | some v => .ok (EE.new (.Integer v) pos)
          | none => .err (Error.new
              (s!"error converting `{val}` to integer: invalid digit or out of range")
              .RuntimeError pos)
      | .Float val =>
          match FM.parseF64 val with
          | some v => .ok (EE.new (.Float v) pos)
          | none => .err (Error.new
              (s!"error converting `{val}` to float: invalid float literal")
              .RuntimeError pos)
      | .InfixOp op left right =>
          match op with
          | .Add => (ex.eval FM left).bind fun l =>
              (ex.eval FM right).bind fun r => l.add FM r
          | .Sub => (ex.eval FM left).bind fun l =>
              (ex.eval FM right).bind fun r => l.sub FM r
          | .Mul => (ex.eval FM left).bind fun l =>
              (ex.eval FM right).bind fun r => l.mul FM r
          | .Div => (ex.eval FM left).bind fun l =>
              (ex.eval FM right).bind fun r => l.div FM r
          | .Mod => (ex.eval FM left).bind fun l =>
              (ex.eval FM right).bind fun r => l.modulo FM r
          | .IntDiv => (ex.eval FM left).bind fun l =>
              (ex.eval FM right).bind fun r => l.int_div FM r
          | .Pow => (ex.eval FM left).bind fun l =>
              (ex.eval FM right).bind fun r => l.pow FM r
          | .As => (ex.eval FM left).bind fun l => l.as_cast FM right
          | .BitShiftL => (ex.eval FM left).bind fun l =>
              (ex.eval FM right).bind fun r => l.bitshift_l r
          | .BitShiftR => (ex.eval FM left).bind fun l =>
              (ex.eval FM right).bind fun r => l.bitshift_r r
          | .LNot => (ex.eval FM left).bind fun l => l.lnot
          | .LOr => (ex.eval FM left).bind fun l =>
              (ex.eval FM right).bind fun r => l.lor r
          | .LAnd => (ex.eval FM left).bind fun l =>
              (ex.eval FM right).bind fun r => l.land r
          | .BOr => (ex.eval FM left).bind fun l =>
              (ex.eval FM right).bind fun r => l.bor r
          | .BAnd => (ex.eval FM left).bind fun l =>
              (ex.eval FM right).bind fun r => l.band r
          | .BXor => (ex.eval FM left).bind fun l =>
              (ex.eval FM right).bind fun r => l.bxor r
          | .NEql => (ex.eval FM left).bind fun l =>
              (ex.eval FM right).bind fun r => l.neql FM r
          | .Eql => (ex.eval FM left).bind fun l =>
              (ex.eval FM right).bind fun r => l.eql FM r
          | .LT => (ex.eval FM left).bind fun l =>
              (ex.eval FM right).bind fun r => l.lt FM r
          | .LE => (ex.eval FM left).bind fun l =>
              (ex.eval FM right).bind fun r => l.lte FM r
          | .GT => (ex.eval FM left).bind fun l =>
              (ex.eval FM right).bind fun r => l.gt FM r
          | .GE => (ex.eval FM left).bind fun l =>
              (ex.eval FM right).bind fun r => l.gte FM r
          | .BNot => .err (Error.new
              (s!"infix {Operator.display .BNot} not implemented yet")
              .TypeError pos)
      | .PrefixOp op value =>
          match op with
          | .Sub => (ex.eval FM value).bind fun v => v.neg FM
          | .Add => (ex.eval FM value).bind fun v => v.posOp FM
          | .BNot => (ex.eval FM value).bind fun v => v.bnot
          | .LNot => (ex.eval FM value).bind fun v => v.lnot
          | _ => .err (Error.new
              (s!"prefix {op.display} not implemented yet")
              .TypeError pos)
      | .Ident val =>
          match ex.symbtab.lookup val with
          | some v => .ok v
          | none => .err (Error.new (s!"no variable `{val}` found")
              .RuntimeError pos)

/-! ## Span propagation of the binary operations -/

theorem EE.add_ok_pos {F : Type} {FM : FloatModel F} {l r v : EE F}
    (h : EE.add FM l r = .ok v) : v.pos = l.calc_pos r := by
  unfold EE.add at h
  repeat' split at h
  all_goals first
    | (injection h with h; subst h; rfl)
    | exact absurd h (by simp)

theorem EE.sub_ok_pos {F : Type} {FM : FloatModel F} {l r v : EE F}
    (h : EE.sub FM l r = .ok v) : v.pos = l.calc_pos r := by
  unfold EE.sub at h
  repeat' split at h
  all_goals first
    | (injection h with h; subst h; rfl)
    | exact absurd h (by simp)

theorem EE.mul_ok_pos {F : Type} {FM : FloatModel F} {l r v : EE F}
    (h : EE.mul FM l r = .ok v) : v.pos = l.calc_pos r := by
  unfold EE.mul at h
  repeat' split at h
  all_goals first
    | (injection h with h; subst h; rfl)
    | exact absurd h (by simp)

theorem EE.modulo_ok_pos {F : Type} {FM : FloatModel F} {l r v : EE F}
    (h : EE.modulo FM l r = .ok v) : v.pos = l.calc_pos r := by
  unfold EE.modulo at h
  repeat' split at h
  all_goals first
    | (injection h with h; subst h; rfl)
    | exact absurd h (by simp)

theorem EE.div_ok_pos {F : Type} {FM : FloatModel F} {l r v : EE F}
    (h : EE.div FM l r = .ok v) : v.pos = l.calc_pos r := by
  unfold EE.div at h
  repeat' split at h
  all_goals first
    | (injection h with h; subst h; rfl)
    | exact absurd h (by simp)

theorem EE.int_div_ok_pos {F : Type} {FM : FloatModel F} {l r v : EE F}
    (h : EE.int_div FM l r = .ok v) : v.pos = l.calc_pos r := by
  unfold EE.int_div at h
  repeat' split at h
  all_goals first
    | (injection h with h; subst h; rfl)
    | exact absurd h (by simp)

theorem EE.pow_ok_pos {F : Type} {FM : FloatModel F} {l r v : EE F}
    (h : EE.pow FM l r = .ok v) : v.pos = l.calc_pos r := by
  unfold EE.pow at h
  repeat' split at h
  all_goals first
    | (injection h with h; subst h; rfl)
    | exact absurd h (by simp)

theorem EE.bitshift_l_ok_pos {F : Type} {l r v : EE F}
    (h : EE.bitshift_l l r = .ok v) : v.pos = l.calc_pos r := by
  unfold EE.bitshift_l at h
  repeat' split at h
  all_goals first
    | (injection h with h; subst h; rfl)
    | exact absurd h (by simp)

theorem EE.bitshift_r_ok_pos {F : Type} {l r v : EE F}
    (h : EE.bitshift_r l r = .ok v) : v.pos = l.calc_pos r := by
  unfold EE.bitshift_r at h
  repeat' split at h
  all_goals first
    | (injection h with h; subst h; rfl)
    | exact absurd h (by simp)

theorem EE.eql_ok_pos {F : Type} {FM : FloatModel F} {l r v : EE F}
    (h : EE.eql FM l r = .ok v) : v.pos = l.calc_pos r := by
  unfold EE.eql at h
  injection h with h
  subst h
  rfl

theorem EE.neql_ok_pos {F : Type} {FM : FloatModel F} {l r v : EE F}
    (h : EE.neql FM l r = .ok v) : v.pos = l.calc_pos r := by
  unfold EE.neql at h
  injection h with h
  subst h
  rfl

theorem EE.lt_ok_pos {F : Type} {FM : FloatModel F} {l r v : EE F}
    (h : EE.lt FM l r = .ok v) : v.pos = l.calc_pos r := by
  unfold EE.lt at h
  repeat' split at h
  all_goals first
    | (injection h with h; subst h; rfl)
    | exact absurd h (by simp)

theorem EE.gt_ok_pos {F : Type} {FM : FloatModel F} {l r v : EE F}
    (h : EE.gt FM l r = .ok v) : v.pos = l.calc_pos r := by
  unfold EE.gt at h
  repeat' split at h
  all_goals first
    | (injection h with h; subst h; rfl)
    | exact absurd h (by simp)

theorem EE.lte_ok_pos {F : Type} {FM : FloatModel F} {l r v : EE F}
    (h : EE.lte FM l r = .ok v) : v.pos = l.calc_pos r := by
  unfold EE.lte at h
  repeat' split at h
  all_goals first
    | (injection h with h; subst h; rfl)
    | exact absurd h (by simp)

theorem EE.gte_ok_pos {F : Type} {FM : FloatModel F} {l r v : EE F}
    (h : EE.gte FM l r = .ok v) : v.pos = l.calc_pos r := by
  unfold EE.gte at h
  repeat' split at h
  all_goals first
    | (injection h with h; subst h; rfl)
    | exact absurd h (by simp)

theorem EE.land_ok_pos {F : Type} {l r v : EE F}
    (h : EE.land l r = .ok v) : v.pos = l.pos := by
  unfold EE.land at h
  repeat' split at h
  all_goals first
    | (injection h with h; subst h; rfl)
    | exact absurd h (by simp)

theorem EE.lor_ok_pos {F : Type} {l r v : EE F}
    (h : EE.lor l r = .ok v) : v.pos = l.pos := by
  unfold EE.lor at h
  repeat' split at h
  all_goals first
    | (injection h with h; subst h; rfl)
    | exact absurd h (by simp)

theorem EE.band_ok_pos {F : Type} {l r v : EE F}
    (h : EE.band l r = .ok v) : v.pos = l.pos := by
  unfold EE.band at h
  repeat' split at h
  all_goals first
    | (injection h with h; subst h; rfl)
    | exact absurd h (by simp)

theorem EE.bor_ok_pos {F : Type} {l r v : EE F}
    (h : EE.bor l r = .ok v) : v.pos = l.pos := by
  unfold EE.bor at h
  repeat' split at h
  all_goals first
    | (injection h with h; subst h; rfl)
    | exact absurd h (by simp)

theorem EE.bxor_ok_pos {F : Type} {l r v : EE F}
    (h : EE.bxor l r = .ok v) : v.pos = l.pos := by
  unfold EE.bxor at h
  repeat' split at h
  all_goals first
    | (injection h with h; subst h; rfl)
    | exact absurd h (by simp)

theorem Lexer.number_tok_ne_eof {lx : Lexer} {r}
    (h : lx.number = .ok r) : r.1.tok_type ≠ .EOF := by
  unfold Lexer.number at h
  dsimp only at h
  split at h
  · rw [Outcome.bind_eq_ok] at h
    obtain ⟨⟨n1, lxa⟩, ha, h⟩ := h
    dsimp only at h
    split at h
    · rw [Outcome.bind_eq_ok] at h
      obtain ⟨⟨n2, lxb⟩, hb, h⟩ := h
      dsimp only at h
      rw [Outcome.map_eq_ok] at h
      obtain ⟨t, ht, h⟩ := h
      rw [← h]
      simp [(Lexer.crate_tok_state ht).2]
    · rw [Outcome.map_eq_ok] at h
      obtain ⟨t, ht, h⟩ := h
      rw [← h]
      simp [(Lexer.crate_tok_state ht).2]
  · split at h
    · rw [Outcome.bind_eq_ok] at h
      obtain ⟨⟨n1, lxa⟩, ha, h⟩ := h
      dsimp only at h
      rw [Outcome.map_eq_ok] at h
      obtain ⟨t, ht, h⟩ := h
      rw [← h]
      simp [(Lexer.crate_tok_state ht).2]
    · rw [Outcome.map_eq_ok] at h
      obtain ⟨t, ht, h⟩ := h
      rw [← h]
      simp [(Lexer.crate_tok_state ht).2]

theorem Lexer.identifier_tok_ne_eof {lx : Lexer} {r}
    (h : lx.identifier = .ok r) : r.1.tok_type ≠ .EOF := by
  unfold Lexer.identifier at h
  dsimp only at h
  split at h
  · exact absurd h (by simp)
  · injection h with h
    rw [← h]
    dsimp only
    split_ifs <;> simp

theorem Lexer.new_literal_tok_ne_eof {lx : Lexer} {c : Char} {t : Token}
    (h : lx.new_literal c = .ok t) : t.tok_type ≠ .EOF := by
  unfold Lexer.new_literal at h
  split_ifs at h
  · injection h with h
    rw [← h]
    simp
  · injection h with h
    rw [← h]
    simp
  · split at h
    · injection h with h
      rw [← h]
      simp
    · exact absurd h (by simp)

set_option maxHeartbeats 1000000 in
theorem Lexer.lexStepCmp_no_eof {lx : Lexer} {c : Char} {t : Token} {lx'}
    (h : lx.lexStepCmp c = .ok (some t, lx')) : t.tok_type ≠ .EOF := by
  unfold Lexer.lexStepCmp at h
  split_ifs at h
  all_goals
    first
    | (injection h with h1
       injection h1 with h2 h3
       injection h2 with h4
       rw [← h4]
       simp [Lexer.double_op])
    | (rw [Outcome.map_eq_ok] at h
       obtain ⟨a, ha, h⟩ := h
       injection h with h1 h2
       injection h1 with h1
       rw [← h1]
       exact Lexer.new_literal_tok_ne_eof ha)

set_option maxHeartbeats 1000000 in
theorem Lexer.lexStepOp_no_eof {lx : Lexer} {c : Char} {t : Token} {lx'}
    (h : lx.lexStepOp c = .ok (some t, lx')) : t.tok_type ≠ .EOF := by
  unfold Lexer.lexStepOp at h
  split_ifs at h
  all_goals
    first
    | (injection h with h1
       injection h1 with h2 h3
       injection h2 with h4
       rw [← h4]
       simp [Lexer.double_op])
    | (rw [Outcome.map_eq_ok] at h
       obtain ⟨a, ha, h⟩ := h
       injection h with h1 h2
       injection h1 with h1
       rw [← h1]
       exact Lexer.new_literal_tok_ne_eof ha)
    | exact Lexer.lexStepCmp_no_eof h

set_option maxHeartbeats 1000000 in
/-- No token pushed by the loop body is an `EndOfFile` token. -/
theorem Lexer.lexStep_no_eof {lx : Lexer} {c : Char} {t : Token} {lx'}
    (h : lx.lexStep c = .ok (some t, lx')) : t.tok_type ≠ .EOF := by
  unfold Lexer.lexStep at h
  split_ifs at h
  all_goals
    first
    | (rw [Outcome.map_eq_ok] at h
       obtain ⟨a, ha, h⟩ := h
       injection h with h1 h2
       injection h1 with h1
       rw [← h1]
       first
       | exact Lexer.number_tok_ne_eof ha
       | exact Lexer.identifier_tok_ne_eof ha)
    | (injection h with h1
       injection h1 with h2 h3
       exact Option.noConfusion h2)
    | exact Lexer.lexStepOp_no_eof h

theorem Lexer.tokenizeLoop_nil {lx : Lexer} (h : lx.chars_peek = [])
    (fuel : Nat) (acc : List Token) :
    Lexer.tokenizeLoop (fuel + 1) lx acc =
      .ok (acc ++ [⟨.EOF, "", ⟨lx.pos + 1, lx.pos + 1⟩⟩]) := by
  simp [Lexer.tokenizeLoop, Lexer.bump_char, h]

theorem Lexer.tokenizeLoop_cons_ok {lx : Lexer} {c : Char} {cs : List Char}
    {otok : Option Token} {lx2 : Lexer}
    (hcp : lx.chars_peek = c :: cs) (hc : ¬c = EOF_CHAR)
    (hstep : Lexer.lexStep { lx with pos := lx.pos + 1, chars_peek := cs } c =
      .ok (otok, lx2)) (fuel : Nat) (acc : List Token) :
    Lexer.tokenizeLoop (fuel + 1) lx acc =
      Lexer.tokenizeLoop fuel lx2 (acc ++ otok.toList) := by
  simp [Lexer.tokenizeLoop, Lexer.bump_char, hcp, hc, hstep]

theorem Lexer.tokenizeLoop_cons_err {lx : Lexer} {c : Char} {cs : List Char}
    {e : Error}
    (hcp : lx.chars_peek = c :: cs) (hc : ¬c = EOF_CHAR)
    (hstep : Lexer.lexStep { lx with pos := lx.pos + 1, chars_peek := cs } c =
      .err e) (fuel : Nat) (acc : List Token) :
    Lexer.tokenizeLoop (fuel + 1) lx acc = .err e := by
  simp [Lexer.tokenizeLoop, Lexer.bump_char, hcp, hc, hstep]

theorem Lexer.tokenizeLoop_cons_panic {lx : Lexer} {c : Char}
    {cs : List Char} {m : String}
    (hcp : lx.chars_peek = c :: cs) (hc : ¬c = EOF_CHAR)
    (hstep : Lexer.lexStep { lx with pos := lx.pos + 1, chars_peek := cs } c =
      .panic m) (fuel : Nat) (acc : List Token) :
    Lexer.tokenizeLoop (fuel + 1) lx acc = .panic m := by
  simp [Lexer.tokenizeLoop, Lexer.bump_char, hcp, hc, hstep]

/-- Invariant of the `tokenize` loop: on success over a NUL-free source,
the produced tokens are the accumulator followed by non-`EOF` tokens and
one final `EndOfFile` token whose span is `{N + 1, N + 1}` for `N` the
number of characters of the source. -/
theorem Lexer.tokenizeLoop_spec {N : Nat} :
    ∀ (fuel : Nat) (lx : Lexer) (acc ts : List Token),
      EOF_CHAR ∉ lx.chars_peek →
      lx.file_contents.length = N →
      lx.pos + lx.chars_peek.length = N →
      Lexer.tokenizeLoop fuel lx acc = .ok ts →
      ∃ mid, ts = acc ++ mid ++ [⟨.EOF, "", ⟨N + 1, N + 1⟩⟩] ∧
        ∀ t ∈ mid, t.tok_type ≠ .EOF := by
  intro fuel
  induction fuel with
  | zero =>
      intro lx acc ts _ _ _ h
      exact absurd h (by simp [Lexer.tokenizeLoop])
  | succ fuel ih =>
      intro lx acc ts hnul hN hsum h
      cases hcp : lx.chars_peek with
      | nil =>
          rw [Lexer.tokenizeLoop_nil hcp] at h
          injection h with h
          have hp : lx.pos + 1 = N + 1 := by
            rw [hcp] at hsum
            simpa using hsum
          refine ⟨[], ?_, by simp⟩
          rw [← h, hp]
          simp
      | cons c cs =>
          have hc : ¬c = EOF_CHAR := by
            intro he
            exact hnul (hcp ▸ (he ▸ List.mem_cons_self c cs))
          cases hstep : Lexer.lexStep
              { lx with pos := lx.pos + 1, chars_peek := cs } c with
          | err e =>
              rw [Lexer.tokenizeLoop_cons_err hcp hc hstep] at h
              exact absurd h (by simp)
          | panic m =>
              rw [Lexer.tokenizeLoop_cons_panic hcp hc hstep] at h
              exact absurd h (by simp)
          | ok pr =>
              obtain ⟨otok, lx2⟩ := pr
              rw [Lexer.tokenizeLoop_cons_ok hcp hc hstep] at h
              have hadv : Lexer.Advances
                  { lx with pos := lx.pos + 1, chars_peek := cs } lx2 :=
                Lexer.lexStep_advances hstep
              have hN2 : lx2.file_contents.length = N := by
                rw [hadv.1]
                exact hN
              have hsum2 : lx2.pos + lx2.chars_peek.length = N := by
                have h1 := hadv.2.2
                dsimp at h1
                rw [hcp] at hsum
                simp at hsum
                omega
              have hnul2 : EOF_CHAR ∉ lx2.chars_peek := by
                intro hm
                exact hnul (hcp ▸ List.mem_cons_of_mem c (hadv.2.1.subset hm))
              obtain ⟨mid, hts, hmid⟩ :=
                ih lx2 (acc ++ otok.toList) ts hnul2 hN2 hsum2 h
              refine ⟨otok.toList ++ mid, ?_, ?_⟩
              · rw [hts]
                simp
              · intro t ht
                rcases List.mem_append.1 ht with h1 | h2
                · cases otok with
                  | none => simp at h1
                  | some tk =>
                      simp at h1
                      rw [h1]
                      exact Lexer.lexStep_no_eof hstep
                · exact hmid t h2

/-- Same-variant test on runtime values (used to state the claims about
cross-variant equality). -/
def sameVariant {F : Type} : ExecutionExpr F → ExecutionExpr F → Bool
  | .Integer _, .Integer _ => true
  | .Float _, .Float _ => true
  | .Bool _, .Bool _ => true
  | _, _ => false

/-! ## Claim theorems -/

/-- C1, counterexample: `BAnd` on `Integer 1` (span `{0,1}`) and
`Integer 2` (span `{4,5}`) produces a value carrying the *left* span
`{0,1}`, not the combined span `{0,5}` the claim requires. -/
theorem C1_counterexample :
    EE.band (F := ℚ) ⟨.Integer 1, Pos.new 0 1⟩ ⟨.Integer 2, Pos.new 4 5⟩ =
      .ok ⟨.Integer 0, Pos.new 0 1⟩ ∧
    Pos.new 0 1 ≠ Pos.new 0 5 :=
  ⟨by decide, by decide⟩

/-- C1, amended: the arithmetic, comparison, shift and (in)equality
binary operations produce values whose span is
`{left.span.start, right.span.end}`, but the logical (`LAnd`/`LOr`) and
bitwise (`BAnd`/`BOr`/`BXor`) binary operations produce values carrying
the left operand's span. -/
theorem C1_amended {F : Type} (FM : FloatModel F) (l r v : EE F) :
    (EE.add FM l r = .ok v → v.pos = Pos.new l.pos.start r.pos.«end») ∧
    (EE.sub FM l r = .ok v → v.pos = Pos.new l.pos.start r.pos.«end») ∧
    (EE.mul FM l r = .ok v → v.pos = Pos.new l.pos.start r.pos.«end») ∧
    (EE.div FM l r = .ok v → v.pos = Pos.new l.pos.start r.pos.«end») ∧
    (EE.int_div FM l r = .ok v → v.pos = Pos.new l.pos.start r.pos.«end») ∧
    (EE.modulo FM l r = .ok v → v.pos = Pos.new l.pos.start r.pos.«end») ∧
    (EE.pow FM l r = .ok v → v.pos = Pos.new l.pos.start r.pos.«end») ∧
    (EE.bitshift_l l r = .ok v → v.pos = Pos.new l.pos.start r.pos.«end») ∧
    (EE.bitshift_r l r = .ok v → v.pos = Pos.new l.pos.start r.pos.«end») ∧
    (EE.eql FM l r = .ok v → v.pos = Pos.new l.pos.start r.pos.«end») ∧
    (EE.neql FM l r = .ok v → v.pos = Pos.new l.pos.start r.pos.«end») ∧
    (EE.lt FM l r = .ok v → v.pos = Pos.new l.pos.start r.pos.«end») ∧
    (EE.lte FM l r = .ok v → v.pos = Pos.new l.pos.start r.pos.«end») ∧
    (EE.gt FM l r = .ok v → v.pos = Pos.new l.pos.start r.pos.«end») ∧
    (EE.gte FM l r = .ok v → v.pos = Pos.new l.pos.start r.pos.«end») ∧
    (EE.land l r = .ok v → v.pos = l.pos) ∧
    (EE.lor l r = .ok v → v.pos = l.pos) ∧
    (EE.band l r = .ok v → v.pos = l.pos) ∧
    (EE.bor l r = .ok v → v.pos = l.pos) ∧
    (EE.bxor l r = .ok v → v.pos = l.pos) :=
  ⟨fun h => EE.add_ok_pos h, fun h => EE.sub_ok_pos h,
   fun h => EE.mul_ok_pos h, fun h => EE.div_ok_pos h,
   fun h => EE.int_div_ok_pos h, fun h => EE.modulo_ok_pos h,
   fun h => EE.pow_ok_pos h, fun h => EE.bitshift_l_ok_pos h,
   fun h => EE.bitshift_r_ok_pos h, fun h => EE.eql_ok_pos h,
   fun h => EE.neql_ok_pos h, fun h => EE.lt_ok_pos h,
   fun h => EE.lte_ok_pos h, fun h => EE.gt_ok_pos h,
   fun h => EE.gte_ok_pos h, fun h => EE.land_ok_pos h,
   fun h => EE.lor_ok_pos h, fun h => EE.band_ok_pos h,
   fun h => EE.bor_ok_pos h, fun h => EE.bxor_ok_pos h⟩

/-- C1, witness: the amended claim at concrete inputs — `Add` combines
the spans while `LOr` keeps the left one. -/
theorem C1_witness :
    EE.add RatF64 ⟨.Integer 1, Pos.new 0 1⟩ ⟨.Integer 2, Pos.new 4 5⟩ =
      .ok ⟨.Integer 3, Pos.new 0 5⟩ ∧
    (⟨.Integer 3, Pos.new 0 5⟩ : EE ℚ).pos = Pos.new 0 5 ∧
    EE.lor (F := ℚ) ⟨.Bool true, Pos.new 0 1⟩ ⟨.Bool false, Pos.new 4 5⟩ =
      .ok ⟨.Bool true, Pos.new 0 1⟩ ∧
    (⟨.Bool true, Pos.new 0 1⟩ : EE ℚ).pos = Pos.new 0 1 := by
  have h1 := C1_amended RatF64 (⟨.Integer 1, Pos.new 0 1⟩ : EE ℚ)
    ⟨.Integer 2, Pos.new 4 5⟩ ⟨.Integer 3, Pos.new 0 5⟩
  have h2 := C1_amended RatF64 (⟨.Bool true, Pos.new 0 1⟩ : EE ℚ)
    ⟨.Bool false, Pos.new 4 5⟩ ⟨.Bool true, Pos.new 0 1⟩
  obtain ⟨-, -, -, -, -, -, -, -, -, -, -, -, -, -, -, -, hlor, -, -, -⟩ := h2
  exact ⟨by decide, h1.1 (by decide), by decide, hlor (by decide)⟩

/-- C2, counterexample: unary `LNot` on a non-`Bool` operand fails with a
`RuntimeError`, not with the `TypeError` the claim requires. -/
theorem C2_counterexample :
    EE.lnot (F := ℚ) ⟨.Integer 0, Pos.new 0 1⟩ =
      .err (Error.new "cannot logically negate ``integer``" .RuntimeError
        (Pos.new 0 1)) ∧
    ErrorType.RuntimeError ≠ ErrorType.TypeError :=
  ⟨by decide, by decide⟩

/-- C2, amended: `LNot` on a non-`Bool` operand and `BNot` on a
non-`Integer` operand fail with an error of kind `RuntimeError` (not
`TypeError`), at the operand's span. -/
theorem C2_amended {F : Type} (v : EE F) :
    ((∀ b, v.value ≠ .Bool b) →
      EE.lnot v = .err (Error.new
        ("cannot logically negate `" ++ v.value.display_type ++ "`")
        .RuntimeError v.pos)) ∧
    ((∀ n, v.value ≠ .Integer n) →
      EE.bnot v = .err (Error.new
        ("cannot bitwise negate `" ++ v.value.display_type ++ "`")
        .RuntimeError v.pos)) := by
  constructor
  · intro hb
    unfold EE.lnot
    cases hv : v.value with
    | Bool b => exact absurd hv (hb b)
    | Integer n => rfl
    | Float x => rfl
  · intro hn
    unfold EE.bnot
    cases hv : v.value with
    | Integer n => exact absurd hv (hn n)
    | Bool b => rfl
    | Float x => rfl

/-- C2, witness: the amended claim at concrete operands. -/
theorem C2_witness :
    EE.lnot (F := ℚ) ⟨.Integer 0, Pos.new 0 1⟩ =
      .err (Error.new "cannot logically negate ``integer``" .RuntimeError
        (Pos.new 0 1)) ∧
    EE.bnot (F := ℚ) ⟨.Bool true, Pos.new 2 3⟩ =
      .err (Error.new "cannot bitwise negate ``boolean``" .RuntimeError
        (Pos.new 2 3)) := by
  have h1 := C2_amended (F := ℚ) ⟨.Integer 0, Pos.new 0 1⟩
  have h2 := C2_amended (F := ℚ) ⟨.Bool true, Pos.new 2 3⟩
  exact ⟨h1.1 (fun b h => by cases h), h2.2 (fun n h => by cases h)⟩

/-- C3: the `Div` operator on two `Integer` operands always produces a
`Float` value — the float division of the two operands cast to `f64` —
never an `Integer` result and never an error; in particular
`eval(4 / 2)` is `Float 2.0` (at the combined span). -/
theorem C3_div_always_float :
    (∀ (F : Type) (FM : FloatModel F) (a b : ℤ) (p q : Pos),
      EE.div FM ⟨.Integer a, p⟩ ⟨.Integer b, q⟩ =
        .ok ⟨.Float (FM.fdiv (FM.ofI128 a) (FM.ofI128 b)),
          Pos.new p.start q.«end»⟩) ∧
    (Executer.new RatF64).eval RatF64
        (.mk (.InfixOp .Div (.mk (.Integer "4") (Pos.new 0 1))
          (.mk (.Integer "2") (Pos.new 4 5))) (Pos.new 0 5)) =
      .ok ⟨.Float 2, Pos.new 0 5⟩ := by
  refine ⟨fun F FM a b p q => rfl, ?_⟩
  have p4 : parseI128 "4" = some 4 := by decide
  have p2 : parseI128 "2" = some 2 := by decide
  simp only [Executer.eval, p4, p2, Outcome.bind, EE.new]
  have hd : EE.div RatF64 (⟨.Integer 4, Pos.new 0 1⟩ : EE ℚ)
      ⟨.Integer 2, Pos.new 4 5⟩ =
      .ok ⟨.Float (RatF64.fdiv (RatF64.ofI128 4) (RatF64.ofI128 2)),
        Pos.new 0 5⟩ := rfl
  rw [hd]
  norm_num [RatF64]

/-- C6: `Eql`/`NEql` always succeed at the combined span — `NEql` is the
boolean negation of `Eql`, and mismatched variants compare unequal —
while the ordering comparisons succeed exactly on `Integer`/`Integer` or
`Float`/`Float` pairs and fail with a `TypeError` on every other
pairing. -/
theorem C6_eql_neql_orderings {F : Type} (FM : FloatModel F) (l r : EE F) :
    EE.eql FM l r =
      .ok ⟨.Bool (execBeq FM l.value r.value), EE.calc_pos l r⟩ ∧
    EE.neql FM l r =
      .ok ⟨.Bool (!execBeq FM l.value r.value), EE.calc_pos l r⟩ ∧
    (sameVariant l.value r.value = false →
      execBeq FM l.value r.value = false) ∧
    ((∃ a b, l.value = .Integer a ∧ r.value = .Integer b) ∨
     (∃ a b, l.value = .Float a ∧ r.value = .Float b) →
      (∃ u, EE.lt FM l r = .ok u) ∧ (∃ u, EE.gt FM l r = .ok u) ∧
      (∃ u, EE.lte FM l r = .ok u) ∧ (∃ u, EE.gte FM l r = .ok u)) ∧
    (¬((∃ a b, l.value = .Integer a ∧ r.value = .Integer b) ∨
       (∃ a b, l.value = .Float a ∧ r.value = .Float b)) →
      (∃ e, EE.lt FM l r = .err e ∧ e.kind = .TypeError) ∧
      (∃ e, EE.gt FM l r = .err e ∧ e.kind = .TypeError) ∧
      (∃ e, EE.lte FM l r = .err e ∧ e.kind = .TypeError) ∧
      (∃ e, EE.gte FM l r = .err e ∧ e.kind = .TypeError)) := by
  obtain ⟨lv, lp⟩ := l
  obtain ⟨rv, rp⟩ := r
  refine ⟨rfl, rfl, ?_, ?_, ?_⟩
  · cases lv <;> cases rv <;> simp [execBeq, sameVariant]
  · intro hyp
    cases lv <;> cases rv <;>
      first
      | exact ⟨⟨_, rfl⟩, ⟨_, rfl⟩, ⟨_, rfl⟩, ⟨_, rfl⟩⟩
      | (exfalso
         rcases hyp with ⟨a, b, ha, hb⟩ | ⟨a, b, ha, hb⟩ <;> simp_all)
  · intro hyp
    cases lv <;> cases rv <;>
      first
      | (exfalso; exact hyp (Or.inl ⟨_, _, rfl, rfl⟩))
      | (exfalso; exact hyp (Or.inr ⟨_, _, rfl, rfl⟩))
      | exact ⟨⟨_, rfl, rfl⟩, ⟨_, rfl, rfl⟩, ⟨_, rfl, rfl⟩, ⟨_, rfl, rfl⟩⟩

/-- C6, witness: comparing `Bool` to `Integer` — `Eql` is `false`, `NEql`
is `true`, and `LT` raises a `TypeError`. -/
theorem C6_witness :
    EE.eql RatF64 (⟨.Bool true, Pos.new 0 1⟩ : EE ℚ)
      ⟨.Integer 1, Pos.new 4 5⟩ = .ok ⟨.Bool false, Pos.new 0 5⟩ ∧
    EE.neql RatF64 (⟨.Bool true, Pos.new 0 1⟩ : EE ℚ)
      ⟨.Integer 1, Pos.new 4 5⟩ = .ok ⟨.Bool true, Pos.new 0 5⟩ ∧
    (∃ e, EE.lt RatF64 (⟨.Bool true, Pos.new 0 1⟩ : EE ℚ)
      ⟨.Integer 1, Pos.new 4 5⟩ = .err e ∧ e.kind = .TypeError) := by
  have h := C6_eql_neql_orderings RatF64 (⟨.Bool true, Pos.new 0 1⟩ : EE ℚ)
    ⟨.Integer 1, Pos.new 4 5⟩
  refine ⟨?_, ?_, (h.2.2.2.2 (by simp)).1⟩
  · rw [h.1]; decide
  · rw [h.2.1]; decide

theorem ratTrunc_intCast (n : ℤ) : ratTrunc (n : ℚ) = n := by
  unfold ratTrunc
  split
  · exact Int.floor_intCast n
  · exact Int.ceil_intCast n

theorem ratRound_intCast (n : ℤ) : ratRound (n : ℚ) = n := by
  unfold ratRound
  split
  · rw [Int.floor_int_add]
    norm_num
  · rw [sub_eq_add_neg, add_comm, Int.ceil_add_int]
    norm_num

theorem f64AsI128_intCast {n : ℤ} (h1 : i128Min ≤ n) (h2 : n ≤ i128Max) :
    f64AsI128 (n : ℚ) = n := by
  unfold f64AsI128
  rw [ratTrunc_intCast]
  omega

/-- C7: casting an `Integer` in the signed 32-bit range to `float` and
the result back to `int` (`as float` then `as int`, in the `RatF64`
model, where every operation on this path is exact in binary64) succeeds
and round-trips to the same integer, preserving the operand's span. -/
theorem C7_cast_roundtrip (n : ℤ) (h1 : -(2 ^ 31) ≤ n) (h2 : n ≤ 2 ^ 31 - 1)
    (p q1 q2 : Pos) :
    EE.as_cast RatF64 ⟨.Integer n, p⟩ (.mk (.Ident "float") q1) =
      .ok ⟨.Float (n : ℚ), p⟩ ∧
    EE.as_cast RatF64 ⟨.Float (n : ℚ), p⟩ (.mk (.Ident "int") q2) =
      .ok ⟨.Integer n, p⟩ := by
  constructor
  · have hi : i32_try_from n = some n := by
      unfold i32_try_from
      rw [if_pos ⟨h1, h2⟩]
    simp [EE.as_cast, Expression.expr, hi, RatF64]
  · have hr : RatF64.asI128 (RatF64.fround (n : ℚ)) = n := by
      show f64AsI128 ((ratRound (n : ℚ) : ℤ) : ℚ) = n
      rw [ratRound_intCast]
      refine f64AsI128_intCast ?_ ?_ <;> simp only [i128Min, i128Max] <;> omega
    simp [EE.as_cast, Expression.expr, hr]

/-- C7, witness: the round trip at `n = 7`. -/
theorem C7_witness :
    (-(2 ^ 31) ≤ (7 : ℤ)) ∧ ((7 : ℤ) ≤ 2 ^ 31 - 1) ∧
    EE.as_cast RatF64 ⟨.Integer 7, Pos.new 0 1⟩
      (.mk (.Ident "float") (Pos.new 5 10)) =
      .ok ⟨.Float (7 : ℚ), Pos.new 0 1⟩ ∧
    EE.as_cast RatF64 ⟨.Float (7 : ℚ), Pos.new 0 1⟩
      (.mk (.Ident "int") (Pos.new 5 8)) =
      .ok ⟨.Integer 7, Pos.new 0 1⟩ := by
  have h := C7_cast_roundtrip 7 (by decide) (by decide)
    (Pos.new 0 1) (Pos.new 5 10) (Pos.new 5 8)
  exact ⟨by decide, by decide, h.1, h.2⟩

/-- C9, counterexample: evaluating the identifier `pi` at span `{5,7}`
returns the stored constant carrying the environment entry's span
`{0,0}`, not the identifier's span the claim requires. -/
theorem C9_counterexample :
    (Executer.new RatF64).eval RatF64 (.mk (.Ident "pi") (Pos.new 5 7)) =
      .ok ⟨.Float f64PI, Pos.new 0 0⟩ ∧
    Pos.new 0 0 ≠ Pos.new 5 7 :=
  ⟨by rfl, by decide⟩

/-- C9, amended: evaluating a bound constant (`pi`, `tau`, `e`, `sqrt2`)
returns the corresponding `Float` constant paired with the environment
entry's span `{0,0}` (not the identifier's span), and evaluating any
unbound identifier fails with a `RuntimeError` "no variable `<name>`
found" at the identifier's span. -/
theorem C9_amended (p : Pos) (name : String) :
    (Executer.new RatF64).eval RatF64 (.mk (.Ident "pi") p) =
      .ok ⟨.Float f64PI, Pos.new 0 0⟩ ∧
    (Executer.new RatF64).eval RatF64 (.mk (.Ident "tau") p) =
      .ok ⟨.Float (f64PI * 2), Pos.new 0 0⟩ ∧
    (Executer.new RatF64).eval RatF64 (.mk (.Ident "e") p) =
      .ok ⟨.Float f64E, Pos.new 0 0⟩ ∧
    (Executer.new RatF64).eval RatF64 (.mk (.Ident "sqrt2") p) =
      .ok ⟨.Float f64SQRT2, Pos.new 0 0⟩ ∧
    ((Executer.new RatF64).symbtab.lookup name = none →
      (Executer.new RatF64).eval RatF64 (.mk (.Ident name) p) =
        .err (Error.new ("no variable `" ++ name ++ "` found")
          .RuntimeError p)) := by
  refine ⟨by rfl, by rfl, by rfl, by rfl, fun h => ?_⟩
  simp only [Executer.eval]
  rw [h]
  rfl

/-- C9, witness: the unbound identifier `x`. -/
theorem C9_witness :
    (Executer.new RatF64).symbtab.lookup "x" = none ∧
    (Executer.new RatF64).eval RatF64 (.mk (.Ident "x") (Pos.new 3 4)) =
      .err (Error.new "no variable `x` found" .RuntimeError (Pos.new 3 4)) :=
  ⟨by decide, (C9_amended (Pos.new 3 4) "x").2.2.2.2 (by decide)⟩

/-- C10: `Mod` on `Integer` operands has no zero-divisor guard — a zero
right operand is a Rust panic, never an `Error` (in particular never a
`RuntimeError`), and away from the panic inputs it is the raw truncating
remainder — whereas `IntDiv` reports divide-by-zero as a
`RuntimeError`. -/
theorem C10_mod_no_guard {F : Type} (FM : FloatModel F) (a b : ℤ)
    (p q : Pos) :
    EE.modulo FM ⟨.Integer a, p⟩ ⟨.Integer 0, q⟩ =
      .panic "attempt to calculate the remainder with a divisor of zero" ∧
    (∀ e, EE.modulo FM ⟨.Integer a, p⟩ ⟨.Integer b, q⟩ ≠ .err e) ∧
    (b ≠ 0 → ¬(a = i128Min ∧ b = -1) →
      EE.modulo FM ⟨.Integer a, p⟩ ⟨.Integer b, q⟩ =
        .ok ⟨.Integer (a.tmod b), Pos.new p.start q.«end»⟩) ∧
    (∃ m, EE.int_div FM ⟨.Integer a, p⟩ ⟨.Integer 0, q⟩ =
      .err (Error.new m .RuntimeError (Pos.new p.start q.«end»))) := by
  refine ⟨rfl, ?_, ?_, ⟨_, rfl⟩⟩
  · intro e he
    simp only [EE.modulo] at he
    split_ifs at he
  · intro hb hmin
    simp only [EE.modulo]
    rw [if_neg hb, if_neg hmin]
    rfl

/-- C10, witness: `7 % 3` succeeds with the truncating remainder while
`7 // 0` is a `RuntimeError`. -/
theorem C10_witness :
    (3 : ℤ) ≠ 0 ∧
    EE.modulo RatF64 ⟨.Integer 7, Pos.new 0 1⟩ ⟨.Integer 3, Pos.new 4 5⟩ =
      .ok ⟨.Integer 1, Pos.new 0 5⟩ ∧
    (∃ m, EE.int_div RatF64 ⟨.Integer 7, Pos.new 0 1⟩
      ⟨.Integer 0, Pos.new 4 5⟩ =
      .err (Error.new m .RuntimeError (Pos.new 0 5))) := by
  have h := C10_mod_no_guard RatF64 7 3 (Pos.new 0 1) (Pos.new 4 5)
  have h0 := C10_mod_no_guard RatF64 7 0 (Pos.new 0 1) (Pos.new 4 5)
  refine ⟨by decide, ?_, h0.2.2.2⟩
  rw [h.2.2.1 (by decide) (by decide)]
  decide

set_option maxHeartbeats 2000000 in
/-- C4, counterexample: `tokenize "8"` (source length 1) succeeds with an
`EndOfFile` token whose span is `{2, 2}`, not the `{1, 1}` the claim
requires — the loop's final `bump_char` has already pushed `pos` one past
the end of the input. -/
theorem C4_counterexample :
    tokenize "8" =
      .ok [⟨.Integer, "8", Pos.new 0 1⟩, ⟨.EOF, "", Pos.new 2 2⟩] ∧
    "8".length = 1 ∧ Pos.new 2 2 ≠ Pos.new 1 1 := by
  exact ⟨by decide, by decide, by decide⟩

/-- C4, amended: for every source without an embedded NUL character on
which `tokenize` succeeds, the returned sequence ends with exactly one
`EndOfFile` token, and that token's span is `{n + 1, n + 1}` where `n` is
the number of *characters* of the source (one more than the claim's
`{len, len}`, and counted in characters rather than bytes). -/
theorem C4_amended (source : String) (ts : List Token)
    (hnul : EOF_CHAR ∉ source.data) (h : tokenize source = .ok ts) :
    ∃ mid, ts = mid ++
        [⟨.EOF, "", ⟨source.data.length + 1, source.data.length + 1⟩⟩] ∧
      ∀ t ∈ mid, t.tok_type ≠ .EOF := by
  obtain ⟨mid, hts, hmid⟩ := Lexer.tokenizeLoop_spec
    (N := source.data.length) (source.data.length + 1) (Lexer.new source) [] ts
    hnul rfl (by simp [Lexer.new]) h
  exact ⟨mid, by simpa using hts, hmid⟩

set_option maxHeartbeats 2000000 in
/-- C4, witness: the amended claim at the one-character source `"8"`. -/
theorem C4_witness :
    EOF_CHAR ∉ "8".data ∧
    ∃ mid, [(⟨.Integer, "8", Pos.new 0 1⟩ : Token), ⟨.EOF, "", Pos.new 2 2⟩] =
        mid ++ [⟨.EOF, "", ⟨"8".data.length + 1, "8".data.length + 1⟩⟩] ∧
      ∀ t ∈ mid, t.tok_type ≠ .EOF := by
  exact ⟨by decide, C4_amended "8" _ (by decide) (by decide)⟩

set_option maxHeartbeats 2000000 in
/-- C5: on the source `U+0085` (two UTF-8 bytes) followed by `8`, the
lexer panics instead of returning `Ok`/`Err`: its position counter counts
characters (the digit `8` is at character offsets `{1, 2}` but byte
offsets `{2, 3}`), and slicing the source by bytes at the
character-counted position 1 is not a character boundary.  This refutes
both the totality and the byte-offset-span parts of the claim. -/
theorem C5_divergence :
    tokenize "\u00858" = .panic "byte index is not a char boundary" ∧
    utf8Len '\u0085' = 2 ∧
    dropBytes "\u00858".data 1 = none := by
  exact ⟨by decide, by decide, by decide⟩

set_option maxHeartbeats 2000000 in
/-- C8: lexing `"8e"` fails with a `LexError` whose message names the
marker `.` — not the actual offending marker `e` — because the
direct-exponent branch of `Lexer::number` passes the literal `"."` to
`number_err`.  The error is at the single-character span after the
marker. -/
theorem C8_divergence :
    tokenize "8e" = .err (Error.new "expected number after `.`" .LexError
      (Pos.new 2 3)) ∧
    "expected number after `.`" ≠ "expected number after `e`" := by
  exact ⟨by decide, by decide⟩

end Yellow
